import Mathlib

/-!
# Package task of overlord (core.go)

A shallow embedding of the task record and of the functions of core.go: the
lifecycle transition `stateTransition`, the label renderer `State.String`,
`parsePriority`, `UpdateID` and `UpdatePath`, together with the parts of Go's
standard library they rely on (`time.Now`, `time.Since`, `Time.Format`,
`strconv.Atoi`, the verb `%x`, `filepath.Join`). The digest function
`sha256.Sum256` and the directory resolver `config.ModuleDir` are parameters.

Machine integers are unbounded `Int`s; the one place where `int64`
arithmetic can leave its range (`t.Worked += ...`) is wrapped explicitly.
-/

/-! ## The parts of Go's time package used by core.go -/

namespace time

/-! A Go `time.Duration` is a signed 64-bit count of nanoseconds; durations
are `Int`s here, kept in range by `saturate` and `wrap64`. -/

/-- Smallest `time.Duration`, `-1 << 63`. -/
def minDuration : Int := -9223372036854775808

/-- Largest `time.Duration`, `1<<63 - 1`. -/
def maxDuration : Int := 9223372036854775807

/-- Two's-complement wrap-around of a mathematical integer into `int64`,
as performed by Go's `+` on `int64` operands. -/
def wrap64 (x : Int) : Int := (x + 9223372036854775808) % 18446744073709551616 - 9223372036854775808

/-- Seconds from the internal epoch (January 1, year 1, 00:00:00 UTC) to the
Unix epoch: Go's `unixToInternal`. -/
def unixToInternal : Int := (1969 * 365 + 1969 / 4 - 1969 / 100 + 1969 / 400) * 86400

/-- Seconds from the internal epoch to January 1, 1885: Go's `wallToInternal`,
the origin of the 33-bit wall seconds field of a `Time` that carries a
monotonic reading. -/
def wallToInternal : Int := (1884 * 365 + 1884 / 4 - 1884 / 100 + 1884 / 400) * 86400

/-- Go `time.Time`, by what its accessors observe: `sec` is `t.sec()` (seconds
since January 1, year 1 UTC), `nsec` is `t.nsec()`, `mono` is the monotonic
clock reading `t.ext` when the `hasMonotonic` bit is set, and `offset` is the
zone offset (seconds east of UTC) of the location at this instant
(0 for the nil location, which means UTC). -/
structure Time where
  sec : Int
  nsec : Int
  mono : Option Int
  offset : Int
deriving DecidableEq, Repr

/-- The zero value `time.Time{}`: January 1, year 1, 00:00:00 UTC, no
monotonic reading, nil location. -/
def Time.zero : Time := { sec := 0, nsec := 0, mono := none, offset := 0 }

/-- Go `Time.IsZero`: `t.sec() == 0 && t.nsec() == 0`. -/
def Time.IsZero (t : Time) : Bool := decide (t.sec = 0) && decide (t.nsec = 0)

/-- One reading of the system clocks, as returned by the runtime to
`time.Now`: the realtime clock (`sec` seconds and `nsec` nanoseconds counted
forward from the Unix epoch, 1970-01-01T00:00:00Z, so `sec` is never
negative), the monotonic clock (`mono`, nanoseconds since process start) and
the offset of the local zone at that instant. -/
structure Clock where
  sec : Int
  nsec : Int
  mono : Int
  offset : Int
  sec_nonneg : 0 ≤ sec
deriving DecidableEq

/-- Go `time.Now()` at the clock reading `c`: the wall time in the local
zone, with the monotonic reading attached when the seconds since 1885 fit in
33 bits (years 1885 to 2157), and without it otherwise. -/
def Now (c : Clock) : Time :=
  let sec : Int := c.sec + unixToInternal - wallToInternal
  if 0 ≤ sec ∧ sec < 8589934592 then
    { sec := sec + wallToInternal, nsec := c.nsec, mono := some c.mono, offset := c.offset }
  else
    { sec := sec + wallToInternal, nsec := c.nsec, mono := none, offset := c.offset }

/-- The exact elapsed time `t - u` in nanoseconds, before it is fitted into a
`Duration`: the difference of the monotonic readings when both times carry
one, the difference of the wall instants otherwise (the rule of `Time.Sub`). -/
def elapsed (t u : Time) : Int :=
  match t.mono, u.mono with
  | some te, some ue => te - ue
  | _, _ => (t.sec - u.sec) * 1000000000 + (t.nsec - u.nsec)

/-- Fit a nanosecond count into a `Duration` the way `Time.Sub` does: a
value below the minimum becomes `minDuration`, a value above the maximum
becomes `maxDuration`. -/
def saturate (d : Int) : Int :=
  if d < minDuration then minDuration
  else if maxDuration < d then maxDuration
  else d

/-- A nanosecond count that a `Duration` (an `int64`) can hold. -/
def fitsDuration (d : Int) : Prop := minDuration ≤ d ∧ d ≤ maxDuration

instance (d : Int) : Decidable (fitsDuration d) := by
  unfold fitsDuration
  infer_instance

/-- Go `t.Sub(u)`: the duration `t - u`, saturated to the range of
`Duration`. -/
def Time.Sub (t u : Time) : Int := saturate (elapsed t u)

/-- Go `subMono(t, u)`: the difference of two monotonic clock readings,
saturated to the range of `Duration`. -/
def subMono (t u : Int) : Int := saturate (t - u)

/-- Go `time.Since(t)` at the clock reading `c`: when `t` carries a monotonic
reading, the monotonic clock `runtimeNano() - startNano` minus that reading
(whether or not `time.Now()` would carry one); otherwise
`time.Now().Sub(t)`. -/
def Since (c : Clock) (t : Time) : Int :=
  match t.mono with
  | some ext => subMono c.mono ext
  | none => Time.Sub (Now c) t

/-- The exact time elapsed since `t` at the clock reading `c`, in nanoseconds,
before `time.Since` fits it into a `Duration`: measured on the monotonic
clock when `t` carries a monotonic reading, on the wall clock otherwise. -/
def elapsedSince (c : Clock) (t : Time) : Int :=
  match t.mono with
  | some ext => c.mono - ext
  | none => ((Now c).sec - t.sec) * 1000000000 + ((Now c).nsec - t.nsec)

/-! ### Calendar fields and `Time.Format` -/

/-- Go's `absoluteZeroYear`: the year in which the absolute day count used
by the calendar computation starts. -/
def absoluteZeroYear : Int := -292277022399

/-- Go's `internalToAbsolute`, the seconds from the absolute epoch to the
internal epoch: `-(absoluteZeroYear - 1) * 365.2425 * 86400`. -/
def internalToAbsolute : Int := 292277022400 * 31556952

/-- Go `t.abs()`: the seconds since the absolute epoch of the wall time in the
zone of `t` (the zone offset is added), as a `uint64`. -/
def Time.abs (t : Time) : Nat :=
  ((t.sec + t.offset + internalToAbsolute) % 18446744073709551616).toNat

/-- Go `isLeap(year)`. -/
def isLeap (year : Int) : Bool :=
  decide (year % 4 = 0) && (decide (year % 100 ≠ 0) || decide (year % 400 = 0))

/-- Go's table `daysBefore`: `daysBefore[m]` counts the days of a non-leap
year before month `m+1`. -/
def daysBefore : List Nat := [0, 31, 59, 90, 120, 151, 181, 212, 243, 273, 304, 334, 365]

/-- Go `absDate(abs, false)`: the year and the day within the year (from 0)
of the absolute second count `abs`. -/
def absYearDay (abs : Nat) : Int × Nat :=
  let d := abs / 86400
  -- 400-year cycles
  let n := d / 146097
  let y := 400 * n
  let d := d - 146097 * n
  -- 100-year cycles
  let n := d / 36524
  let n := n - n / 4
  let y := y + 100 * n
  let d := d - 36524 * n
  -- 4-year cycles
  let n := d / 1461
  let y := y + 4 * n
  let d := d - 1461 * n
  -- years within a 4-year cycle
  let n := d / 365
  let n := n - n / 4
  let y := y + n
  let d := d - 365 * n
  ((y : Int) + absoluteZeroYear, d)

/-- Go `absDate(abs, true)`: the year, the month (1 to 12) and the day of the
month of the absolute second count `abs`. -/
def absDate (abs : Nat) : Int × Nat × Nat :=
  let year := (absYearDay abs).1
  let d := (absYearDay abs).2
  if isLeap year && decide (d = 31 + 29 - 1) then
    (year, 2, 29)
  else
    let day := if isLeap year && decide (d > 31 + 29 - 1) then d - 1 else d
    let month := day / 31
    let fin := daysBefore.getD (month + 1) 0
    if day ≥ fin then
      (year, month + 2, day - fin + 1)
    else
      (year, month + 1, day - daysBefore.getD month 0 + 1)

/-- Go `absClock(abs)`: hour, minute and second within the day. -/
def absClock (abs : Nat) : Nat × Nat × Nat :=
  let sec := abs % 86400
  let hour := sec / 3600
  let sec := sec - hour * 3600
  let min := sec / 60
  let sec := sec - min * 60
  (hour, min, sec)

/-- Go `t.Date()`: year, month and day in the zone of `t`. -/
def Time.Date (t : Time) : Int × Nat × Nat := absDate t.abs

/-- Go `t.Clock()`: hour, minute and second in the zone of `t`. -/
def Time.Clock (t : Time) : Nat × Nat × Nat := absClock t.abs

/-- Go `appendInt(b, x, width)`: the decimal digits of `x`, padded on the
left with zeros up to `width` digits, after a minus sign when `x` is
negative. -/
def appendInt (x : Int) (width : Nat) : List Char :=
  let ds := Nat.toDigits 10 x.natAbs
  (if x < 0 then ['-'] else []) ++ (List.replicate (width - ds.length) '0' ++ ds)

/-- The pieces a layout string is cut into by Go's `nextStdChunk`, as far as
the layouts of core.go need them: literal text, `2006`, `01`, `02`, `15`,
`04`, `05` and `Z07:00`. -/
inductive Chunk where
  | lit (text : String)
  | stdLongYear
  | stdZeroMonth
  | stdZeroDay
  | stdHour
  | stdZeroMinute
  | stdZeroSecond
  | stdISO8601ColonTZ
deriving DecidableEq, Repr

/-- What `Time.Format` appends for one chunk of the layout. For `Z07:00` the
offset 0 prints `Z`; otherwise the sign, and hours and minutes of the offset
cut to whole minutes (Go's `/` and `%` round toward zero). -/
def formatChunk (t : Time) : Chunk → List Char
  | Chunk.lit text => text.data
  | Chunk.stdLongYear => appendInt t.Date.1 4
  | Chunk.stdZeroMonth => appendInt t.Date.2.1 2
  | Chunk.stdZeroDay => appendInt t.Date.2.2 2
  | Chunk.stdHour => appendInt t.Clock.1 2
  | Chunk.stdZeroMinute => appendInt t.Clock.2.1 2
  | Chunk.stdZeroSecond => appendInt t.Clock.2.2 2
  | Chunk.stdISO8601ColonTZ =>
    if t.offset = 0 then ['Z']
    else
      let zone := Int.tdiv t.offset 60
      if zone < 0 then
        '-' :: (appendInt (Int.tdiv (-zone) 60) 2 ++ ':' :: appendInt (Int.tmod (-zone) 60) 2)
      else
        '+' :: (appendInt (Int.tdiv zone 60) 2 ++ ':' :: appendInt (Int.tmod zone 60) 2)

/-- Go `t.Format(layout)` for a layout given by its chunks. -/
def Time.Format (t : Time) (layout : List Chunk) : String :=
  String.mk (layout.flatMap (formatChunk t))

/-- The layout `time.RFC3339`, "2006-01-02T15:04:05Z07:00", in chunks. -/
def RFC3339 : List Chunk :=
  [Chunk.stdLongYear, Chunk.lit "-", Chunk.stdZeroMonth, Chunk.lit "-", Chunk.stdZeroDay,
   Chunk.lit "T", Chunk.stdHour, Chunk.lit ":", Chunk.stdZeroMinute, Chunk.lit ":",
   Chunk.stdZeroSecond, Chunk.stdISO8601ColonTZ]

end time

/-! ## The part of Go's strconv package used by core.go -/

namespace strconv

/-- The two kinds of `*strconv.NumError`: `ErrSyntax` and `ErrRange`. -/
inductive NumError where
  | ErrSyntax
  | ErrRange
deriving DecidableEq, Repr

/-- The byte test `'0' <= c && c <= '9'` of `ParseUint`. A character outside
ASCII is encoded by bytes that all fail it. -/
def isDigit (c : Char) : Bool := decide (48 ≤ c.toNat) && decide (c.toNat ≤ 57)

/-- The digit value `c - '0'`. -/
def digitValue (c : Char) : Nat := c.toNat - 48

/-- Largest `uint64`, the `maxVal` of `ParseUint(s, 10, 64)`. -/
def maxUint64 : Nat := 18446744073709551615

/-- The loop of Go `ParseUint(s, 10, 64)` over the remaining characters with
the accumulator `n`: a character that is not a digit is a syntax error
(value 0); an accumulator at or above the cutoff `maxUint64/10 + 1`, or a sum
above `maxVal`, is a range error (value `maxVal`). -/
def parseUintLoop : List Char → Nat → Nat × Option NumError
  | [], n => (n, none)
  | c :: cs, n =>
    if !isDigit c then (0, some NumError.ErrSyntax)
    else if 1844674407370955162 ≤ n then (maxUint64, some NumError.ErrRange)
    else if maxUint64 < n * 10 + digitValue c then (maxUint64, some NumError.ErrRange)
    else parseUintLoop cs (n * 10 + digitValue c)

/-- Go `ParseUint(s, 10, 64)`: the empty string is a syntax error. -/
def ParseUint (s : List Char) : Nat × Option NumError :=
  match s with
  | [] => (0, some NumError.ErrSyntax)
  | c :: cs => parseUintLoop (c :: cs) 0

/-- The second half of Go `ParseInt(s, 10, 0)` on a 64-bit platform, after
the sign (`neg`) was picked off and `ParseUint` returned `r`: a syntax error
is passed on with value 0; a magnitude that does not fit `int64` is a range
error returning the nearest bound; otherwise the signed value. -/
def signedResult (neg : Bool) (r : Nat × Option NumError) : Int × Option NumError :=
  if r.2 = some NumError.ErrSyntax then (0, some NumError.ErrSyntax)
  else if !neg && decide (9223372036854775808 ≤ r.1) then
    (9223372036854775807, some NumError.ErrRange)
  else if neg && decide (9223372036854775808 < r.1) then
    (-9223372036854775808, some NumError.ErrRange)
  else (if neg then -(r.1 : Int) else (r.1 : Int), none)

/-- Go `ParseInt(s, 10, 0)`: the empty string is a syntax error; a leading
`+` (character 43) or `-` (character 45) is picked off, and the rest goes to
`ParseUint`. -/
def ParseInt (s : String) : Int × Option NumError :=
  match s.data with
  | [] => (0, some NumError.ErrSyntax)
  | c :: cs =>
    if c = Char.ofNat 43 then signedResult false (ParseUint cs)
    else if c = Char.ofNat 45 then signedResult true (ParseUint cs)
    else signedResult false (ParseUint (c :: cs))

/-- Go `strconv.Atoi(s)`: the result of `ParseInt(s, 10, 0)` converted to
`int` (its fast path for short strings computes the same results). -/
def Atoi (s : String) : Int × Option NumError := ParseInt s

end strconv

/-! ## crypto/sha256, fmt and path/filepath as used by core.go -/

namespace sha256

/-- The result type `[32]byte` of Go `sha256.Sum256`. -/
structure Digest where
  bytes : List (Fin 256)
  size : bytes.length = 32

end sha256

namespace fmt

/-- Go's digit table `ldigits` used by the verb `%x`. -/
def ldigits : List Char := "0123456789abcdef".data

/-- The lowercase hexadecimal digit of a value below 16. -/
def hexDigit (n : Nat) : Char := ldigits.getD n '0'

/-- Go `fmt.Sprintf("%x", b)` for a byte array: two lowercase hexadecimal
digits for each byte, `ldigits[c>>4]` then `ldigits[c&0xF]`, nothing between
the bytes. -/
def sprintfHex (bytes : List (Fin 256)) : List Char :=
  bytes.flatMap (fun c => [hexDigit (c.val / 16), hexDigit (c.val % 16)])

end fmt

namespace filepath

/-- Cut a path at every separator `/` into its elements (empty elements
included). -/
def splitElements : List Char → List (List Char)
  | [] => [[]]
  | c :: cs =>
    match splitElements cs with
    | [] => [[c]]
    | w :: ws => if c = '/' then [] :: w :: ws else (c :: w) :: ws

/-- The elements kept by `Clean`, processed from left to right; `kept` holds
the elements kept so far, last one first. Empty elements and `.` are
dropped; `..` removes the last kept element, or, when there is none to
remove, is itself kept in a path that is not rooted and dropped in a rooted
one. -/
def cleanElements (rooted : Bool) : List (List Char) → List (List Char) → List (List Char)
  | [], kept => kept.reverse
  | w :: ws, kept =>
    if w = [] ∨ w = ['.'] then cleanElements rooted ws kept
    else if w = ['.', '.'] then
      match kept with
      | top :: rest =>
        if top = ['.', '.'] then cleanElements rooted ws (w :: kept)
        else cleanElements rooted ws rest
      | [] => if rooted then cleanElements rooted ws [] else cleanElements rooted ws [w]
    else cleanElements rooted ws (w :: kept)

/-- Go `filepath.Clean` on Unix: the shortest path equivalent to `path` by
purely lexical processing; the empty result is `.`. -/
def Clean (path : List Char) : List Char :=
  let rooted : Bool := decide (path.head? = some '/')
  let body := List.intercalate ['/'] (cleanElements rooted (splitElements path) [])
  if rooted then '/' :: body
  else if body = [] then ['.'] else body

/-- Go `filepath.Join(dir, name)` on Unix: the elements from the first
non-empty one on are joined with `/` and the result is cleaned; two empty
elements give the empty string. -/
def Join (dir name : String) : String :=
  if dir ≠ "" then String.mk (Clean (dir.data ++ '/' :: name.data))
  else if name ≠ "" then String.mk (Clean name.data)
  else ""

end filepath

/-! ## Package task -/

namespace task

/-- Go `type State int`. -/
abbrev State : Type := Int

/-- The constant `InProgress State = iota`. -/
abbrev InProgress : State := 0
/-- The constant `Assigned`. -/
abbrev Assigned : State := 1
/-- The constant `Blocked`. -/
abbrev Blocked : State := 2
/-- The constant `Deferred`. -/
abbrev Deferred : State := 3
/-- The constant `Completed`. -/
abbrev Completed : State := 4
/-- The constant `Deleted`. -/
abbrev Deleted : State := 5

/-- Go `func (s State) String() string`; the fall-through case is
`fmt.Sprintf("State(%d)", s)`. -/
def State.String (s : State) : String :=
  if s = Assigned then "assigned"
  else if s = InProgress then "in-progress"
  else if s = Blocked then "blocked"
  else if s = Deferred then "deferred"
  else if s = Completed then "complete"
  else if s = Deleted then "obsolete"
  else "State(" ++ toString s ++ ")"

/-- Go `type Task struct`. `Priority` is a Go `int` and `Worked` a
`time.Duration` (nanoseconds). -/
structure Task where
  ID : String
  Created : time.Time
  State : State
  Due : time.Time
  Priority : Int
  Description : String
  Notes : String
  Started : time.Time
  Worked : Int
  Path : String
deriving DecidableEq, Repr

/-- A Go `error` result: `none` is `nil`, `some msg` an error with that text. -/
abbrev error : Type := Option String

/-- The nested `switch` of `stateTransition` (core.go lines 73 to 98) that
computes the local `allowed`. -/
def transitionAllowed (cur newState : State) : Bool :=
  if cur = Assigned then
    decide (newState = InProgress ∨ newState = Blocked ∨ newState = Deferred ∨ newState = Deleted)
  else if cur = InProgress then
    decide (newState = Assigned ∨ newState = Blocked ∨ newState = Completed ∨ newState = Deferred)
  else if cur = Blocked then
    decide (newState = InProgress ∨ newState = Deferred ∨ newState = Deleted)
  else if cur = Deferred then
    decide (newState = InProgress ∨ newState = Blocked ∨ newState = Deleted)
  else
    false

/-- Go `func (t *Task) stateTransition(newState State) error`, with the
clock reading `clk` seen by `time.Now` / `time.Since` made explicit. The
result is the returned error together with the task after the call. -/
def stateTransition (clk : time.Clock) (t : Task) (newState : State) : error × Task :=
  if !transitionAllowed t.State newState then
    (some ("Cannot transition task from " ++ State.String t.State ++ " to " ++ State.String newState), t)
  else
    let t1 : Task :=
      if newState = InProgress then
        { t with Started := time.Now clk }
      else if t.State = InProgress then
        { t with Worked := time.wrap64 (t.Worked + time.Since clk t.Started), Started := time.Time.zero }
      else
        t
    (none, { t1 with State := newState })

/-- The transition table of the specification, as (from, to) pairs. -/
def transitionTable : List (State × State) :=
  [ (Assigned, InProgress), (Assigned, Blocked), (Assigned, Deferred), (Assigned, Deleted),
    (InProgress, Assigned), (InProgress, Blocked), (InProgress, Completed), (InProgress, Deferred),
    (Blocked, InProgress), (Blocked, Deferred), (Blocked, Deleted),
    (Deferred, InProgress), (Deferred, Blocked), (Deferred, Deleted) ]

/-- Issue a finite sequence of transition requests, each with the clock
reading at which it is made, one after the other on the same task: the
errors returned, in order, and the task after the last request. -/
def requestAll (t : Task) : List (State × time.Clock) → List error × Task
  | [] => ([], t)
  | r :: rs =>
    let res := stateTransition r.2 t r.1
    let rest := requestAll res.2 rs
    (res.1 :: rest.1, rest.2)

/-- The record invariant of the specification: Started is non-zero exactly
when State is InProgress. -/
def startedInvariant (t : Task) : Prop :=
  t.Started.IsZero = false ↔ t.State = InProgress

instance (t : Task) : Decidable (startedInvariant t) := by
  unfold startedInvariant
  infer_instance

/-- The completed visits to InProgress of a run of requests, as pairs
(clock reading at entry, clock reading at exit). `cur` is the state before
the first request and `entered` the clock reading at which the visit under
way, if any, began. A request succeeds when (current, requested) is in the
transition table; a successful request for InProgress begins a visit, the
next successful request ends it; a rejected request changes nothing. -/
def completedVisits : State → Option time.Clock → List (State × time.Clock) →
    List (time.Clock × time.Clock)
  | _, _, [] => []
  | cur, entered, r :: rs =>
    if (cur, r.1) ∈ transitionTable then
      if r.1 = InProgress then
        completedVisits r.1 (some r.2) rs
      else
        match entered with
        | some a => (a, r.2) :: completedVisits r.1 none rs
        | none => completedVisits r.1 none rs
    else
      completedVisits cur entered rs

/-- The length b - a of a visit entered at clock reading a and left at clock
reading b: the exact time elapsed at b since the value of time.Now at a,
measured on the monotonic clock when that value carries a monotonic reading
and on the wall clock otherwise. -/
def visitDuration (v : time.Clock × time.Clock) : Int :=
  time.elapsedSince v.2 (time.Now v.1)

/-- Starting from the total `w`, every duration of the list and every
running total after adding it can be held by an int64 Duration. -/
def accumulatesInRange (w : Int) : List Int → Bool
  | [] => true
  | d :: ds =>
    decide (time.fitsDuration d) && decide (time.fitsDuration (w + d))
      && accumulatesInRange (w + d) ds

/-- Go `func parsePriority(prio string) (priority int, err error)`: the
named result `priority` keeps the value returned by `strconv.Atoi`; the error
text is "Priority must be between 0 and 9, got " followed by the text `prio`
between single quotes (character 0x27). -/
def parsePriority (prio : String) : Int × error :=
  let r := strconv.Atoi prio
  if r.2 ≠ none ∨ r.1 < 0 ∨ r.1 > 9 then
    (r.1, some ("Priority must be between 0 and 9, got \x27" ++ prio ++ "\x27"))
  else
    (r.1, none)

/-- The value of a run of decimal digits read from left to right, starting
from the value `n` of the digits already read. -/
def digitsValue : List Char → Nat → Nat
  | [], n => n
  | c :: cs, n => digitsValue cs (n * 10 + strconv.digitValue c)

/-- The integer that a text denotes in decimal, if it is a decimal integer:
an optional sign `+` or `-` followed by one or more decimal digits. -/
def decimalInteger (s : String) : Option Int :=
  match s.data with
  | [] => none
  | c :: cs =>
    if c = Char.ofNat 45 then
      if cs ≠ [] ∧ cs.all strconv.isDigit then some (-(digitsValue cs 0 : Int)) else none
    else if c = Char.ofNat 43 then
      if cs ≠ [] ∧ cs.all strconv.isDigit then some (digitsValue cs 0 : Int) else none
    else
      if (c :: cs).all strconv.isDigit then some (digitsValue (c :: cs) 0 : Int) else none

/-- Go `[]byte(s)`: the bytes of the UTF-8 encoding of a string. -/
def bytesOf (s : String) : List (Fin 256) :=
  (s.data.flatMap String.utf8EncodeChar).map (fun b => b.val)

/-- Go `s[:n]` on a string of single-byte characters: the first `n`
characters; `none` stands for the run-time panic when `n` exceeds the
length. -/
def sliceTo (s : List Char) (n : Nat) : Option (List Char) :=
  if n ≤ s.length then some (s.take n) else none

/-- Go `func (t *Task) UpdateID()`, with the digest function
`sha256.Sum256` as the parameter `Sum256`. The result is the task after the
call; `none` stands for a run-time panic. -/
def UpdateID (Sum256 : List (Fin 256) → sha256.Digest) (t : Task) : Option Task :=
  let data := bytesOf (t.Created.Format time.RFC3339)
  match sliceTo (fmt.sprintfHex (Sum256 data).bytes) 10 with
  | some id => some { t with ID := String.mk id }
  | none => none

/-- The layout "2006" of `UpdatePath`, in chunks. -/
def yearLayout : List time.Chunk := [time.Chunk.stdLongYear]

/-- The layout "0102-150405.task" of `UpdatePath`, in chunks: none of the
characters of ".task" and no `-` followed by `15` begins a chunk known to
`nextStdChunk`, so they are literal text. -/
def fileLayout : List time.Chunk :=
  [time.Chunk.stdZeroMonth, time.Chunk.stdZeroDay, time.Chunk.lit "-", time.Chunk.stdHour,
   time.Chunk.stdZeroMinute, time.Chunk.stdZeroSecond, time.Chunk.lit ".task"]

/-- Go `func (t *Task) UpdatePath() error`, with the directory resolver
`config.ModuleDir` as the parameter `ModuleDir` (module name and
sub-directory to directory and error). The result is the returned error
together with the task after the call. -/
def UpdatePath (ModuleDir : String → String → String × error) (t : Task) : error × Task :=
  let r := ModuleDir "task" (t.Created.Format yearLayout)
  if r.2 ≠ none then
    (r.2, t)
  else
    (none, { t with Path := filepath.Join r.1 (t.Created.Format fileLayout) })

/-! ## Sample data -/

/-- A clock reading: 2024-03-05T07:08:09Z, five seconds after process start. -/
def sampleClock : time.Clock :=
  { sec := 1709622489, nsec := 0, mono := 5000000000, offset := 0, sec_nonneg := by decide }

/-- The clock one second after `sampleClock`. -/
def laterClock : time.Clock :=
  { sec := 1709622490, nsec := 0, mono := 6000000000, offset := 0, sec_nonneg := by decide }

/-- The clock at 2024-03-05T07:08:04Z, at process start (monotonic reading
zero). -/
def startClock : time.Clock :=
  { sec := 1709622484, nsec := 0, mono := 0, offset := 0, sec_nonneg := by decide }

/-- The clock at 2160-01-01T00:00:00Z, past the last instant whose
`time.Now` carries a monotonic reading, while the monotonic clock shows five
seconds since process start. -/
def clock2160 : time.Clock :=
  { sec := 5995814400, nsec := 0, mono := 5000000000, offset := 0, sec_nonneg := by decide }

/-- The Go zero value `Task{}`: every field zero, so State is InProgress
(the constant with value 0) and Started is the zero time. -/
def zeroTask : Task :=
  { ID := "", Created := time.Time.zero, State := 0, Due := time.Time.zero, Priority := 0,
    Description := "", Notes := "", Started := time.Time.zero, Worked := 0, Path := "" }

/-- A task in state Assigned with empty Started and nothing worked. -/
def assignedTask : Task := { zeroTask with State := Assigned, Description := "write report" }

/-- A task in state Completed. -/
def completedTask : Task := { zeroTask with State := Completed, Worked := 7200000000000 }

/-- A task in progress since 07:08:04, with a monotonic reading of zero
(taken at process start), one hour worked before. -/
def runningTask : Task :=
  { zeroTask with
    Started := { sec := 63845219284, nsec := 0, mono := some 0, offset := 0 },
    Worked := 3600000000000 }

/-- A task in progress whose Started was read back from its stored record
(no monotonic reading) and lies ten seconds after `sampleClock`: the
realtime clock has been set back since. One hour worked before. -/
def clockSetBackTask : Task :=
  { zeroTask with
    Started := { sec := 63845219299, nsec := 0, mono := none, offset := 0 },
    Worked := 3600000000000 }

/-- The zero-value task after stateTransition moved it to Assigned at
`sampleClock`: State is Assigned, Started is empty and Worked holds the
largest Duration. -/
def saturatedTask : Task := (stateTransition sampleClock zeroTask Assigned).2

/-- The creation time 2024-03-05T07:08:09 UTC. -/
def sampleCreated : time.Time := { sec := 63845219289, nsec := 0, mono := none, offset := 0 }

/-- The same second as `sampleCreated`, 123456789 ns later, with a
monotonic reading. -/
def sampleCreatedNanos : time.Time :=
  { sec := 63845219289, nsec := 123456789, mono := some 5000000000, offset := 0 }

/-- A task created at `sampleCreated`. -/
def createdTask : Task := { assignedTask with Created := sampleCreated }

/-- A task created in the same second as `createdTask`, differing from it in
the nanoseconds of Created and in every field but Created's date, clock and
offset. -/
def otherCreatedTask : Task :=
  { ID := "0000000000", Created := sampleCreatedNanos, State := Blocked, Due := sampleCreated,
    Priority := 3, Description := "file taxes", Notes := "before April",
    Started := time.Time.zero, Worked := 60000000000, Path := "/tmp/x.task" }

/-- A directory resolver stub: /base/2024 for module task and year 2024, an
error for everything else. -/
def stubModuleDir : String → String → String × error :=
  fun module year =>
    if module = "task" ∧ year = "2024" then ("/base/2024", none)
    else ("", some "cannot create module directory")

/-- The creation time 10000-01-01T00:00:00 UTC. -/
def year10000Created : time.Time :=
  { sec := 315537897600, nsec := 0, mono := none, offset := 0 }

/-- A task created at `year10000Created`. -/
def year10000Task : Task := { zeroTask with Created := year10000Created }

/-- A directory resolver stub that succeeds only for module task and the
year text 10000. -/
def stubModuleDir10000 : String → String → String × error :=
  fun module year =>
    if module = "task" ∧ year = "10000" then ("/base/10000", none)
    else ("", some "cannot create module directory")

/-- A digest function stub standing in for SHA-256 in the witnesses: 32
times the sum of the input bytes modulo 256. -/
def stubSum256 : List (Fin 256) → sha256.Digest :=
  fun data =>
    { bytes := List.replicate 32 (Fin.ofNat (data.map Fin.val).sum),
      size := List.length_replicate 32 _ }

/-! ## Helper lemmas -/

theorem saturate_of_fits (d : Int) (h : time.fitsDuration d) : time.saturate d = d := by
  unfold time.fitsDuration time.minDuration time.maxDuration at h
  unfold time.saturate time.minDuration time.maxDuration
  split_ifs <;> omega

theorem wrap64_of_fits (x : Int) (h : time.fitsDuration x) : time.wrap64 x = x := by
  unfold time.fitsDuration time.minDuration time.maxDuration at h
  unfold time.wrap64
  omega

theorem Since_eq (c : time.Clock) (t : time.Time) :
    time.Since c t = time.saturate (time.elapsedSince c t) := by
  unfold time.Since time.elapsedSince time.subMono time.Time.Sub time.elapsed
  cases t.mono with
  | some ext => rfl
  | none => cases (time.Now c).mono <;> rfl

theorem Since_of_fits (c : time.Clock) (t : time.Time)
    (h : time.fitsDuration (time.elapsedSince c t)) :
    time.Since c t = time.elapsedSince c t := by
  rw [Since_eq, saturate_of_fits _ h]

theorem unixToInternal_eq : time.unixToInternal = 62135596800 := by
  norm_num [time.unixToInternal]

theorem wallToInternal_eq : time.wallToInternal = 59453308800 := by
  norm_num [time.wallToInternal]

theorem Now_sec_pos (c : time.Clock) : 0 < (time.Now c).sec := by
  have h : 0 ≤ c.sec := c.sec_nonneg
  unfold time.Now
  rw [unixToInternal_eq, wallToInternal_eq]
  dsimp only
  split_ifs <;> dsimp only <;> omega

theorem Now_not_IsZero (c : time.Clock) : (time.Now c).IsZero = false := by
  have h := Now_sec_pos c
  unfold time.Time.IsZero
  have h2 : (time.Now c).sec ≠ 0 := by omega
  simp [h2]

theorem stateTransition_of_not_allowed (clk : time.Clock) (t : Task) (newState : State)
    (h : transitionAllowed t.State newState = false) :
    stateTransition clk t newState =
      (some ("Cannot transition task from " ++ State.String t.State ++ " to "
        ++ State.String newState), t) := by
  unfold stateTransition
  simp [h]

theorem stateTransition_of_allowed (clk : time.Clock) (t : Task) (newState : State)
    (h : transitionAllowed t.State newState = true) :
    stateTransition clk t newState =
      (none, { (if newState = InProgress then { t with Started := time.Now clk }
                else if t.State = InProgress then
                  { t with Worked := time.wrap64 (t.Worked + time.Since clk t.Started),
                           Started := time.Time.zero }
                else t) with State := newState }) := by
  unfold stateTransition
  simp [h]

theorem stateTransition_leave (clk : time.Clock) (t : Task) (newState : State)
    (hsrc : t.State = InProgress)
    (hdst : newState = Assigned ∨ newState = Blocked ∨ newState = Completed ∨
      newState = Deferred) :
    stateTransition clk t newState =
      (none, { t with Worked := time.wrap64 (t.Worked + time.Since clk t.Started), Started := time.Time.zero, State := newState }) := by
  have ha : transitionAllowed t.State newState = true := by
    unfold transitionAllowed
    rw [hsrc]
    rcases hdst with h | h | h | h <;> rw [h] <;> simp
  have hne : newState ≠ InProgress := by
    rcases hdst with h | h | h | h <;> rw [h] <;> decide
  rw [stateTransition_of_allowed clk t newState ha, if_neg hne, if_pos hsrc]

theorem transitionAllowed_terminal (cur newState : State)
    (h : cur = Completed ∨ cur = Deleted) : transitionAllowed cur newState = false := by
  unfold transitionAllowed
  rcases h with h | h <;> subst h <;> simp

theorem transitionAllowed_iff_mem (cur newState : State) :
    transitionAllowed cur newState = true ↔ (cur, newState) ∈ transitionTable := by
  unfold transitionAllowed transitionTable
  simp only [List.mem_cons, Prod.mk.injEq, List.mem_singleton, List.not_mem_nil, or_false]
  split_ifs <;> simp_all

theorem stateTransition_err_none_iff (clk : time.Clock) (t : Task) (newState : State) :
    (stateTransition clk t newState).1 = none ↔ transitionAllowed t.State newState = true := by
  unfold stateTransition
  cases h : transitionAllowed t.State newState <;> simp

theorem requestAll_cons (t : Task) (r : State × time.Clock) (rs : List (State × time.Clock)) :
    (requestAll t (r :: rs)).2 = (requestAll (stateTransition r.2 t r.1).2 rs).2 := rfl

theorem completedVisits_rejected (cur : State) (entered : Option time.Clock)
    (r : State × time.Clock) (rs : List (State × time.Clock))
    (h : (cur, r.1) ∉ transitionTable) :
    completedVisits cur entered (r :: rs) = completedVisits cur entered rs := by
  cases entered <;> simp only [completedVisits, if_neg h]

theorem completedVisits_enter (cur : State) (entered : Option time.Clock)
    (r : State × time.Clock) (rs : List (State × time.Clock))
    (h : (cur, r.1) ∈ transitionTable) (hdst : r.1 = InProgress) :
    completedVisits cur entered (r :: rs) = completedVisits r.1 (some r.2) rs := by
  cases entered <;> simp only [completedVisits, if_pos h, if_pos hdst]

theorem completedVisits_leave (cur : State) (a : time.Clock)
    (r : State × time.Clock) (rs : List (State × time.Clock))
    (h : (cur, r.1) ∈ transitionTable) (hdst : r.1 ≠ InProgress) :
    completedVisits cur (some a) (r :: rs) = (a, r.2) :: completedVisits r.1 none rs := by
  simp only [completedVisits, if_pos h, if_neg hdst]

theorem completedVisits_other (cur : State)
    (r : State × time.Clock) (rs : List (State × time.Clock))
    (h : (cur, r.1) ∈ transitionTable) (hdst : r.1 ≠ InProgress) :
    completedVisits cur none (r :: rs) = completedVisits r.1 none rs := by
  simp only [completedVisits, if_pos h, if_neg hdst]

/-- The accounting of a run, for a task in any state: `entered` is the clock
reading at which the visit under way began when the task is InProgress. -/
theorem requestAll_worked (reqs : List (State × time.Clock)) :
    ∀ (t : Task) (entered : Option time.Clock),
      (t.State = InProgress → ∃ a, entered = some a ∧ t.Started = time.Now a) →
      (t.State ≠ InProgress → entered = none) →
      accumulatesInRange t.Worked
        ((completedVisits t.State entered reqs).map visitDuration) = true →
      (requestAll t reqs).2.Worked =
        t.Worked + ((completedVisits t.State entered reqs).map visitDuration).sum := by
  induction reqs with
  | nil => intro t entered _ _ _; simp [requestAll, completedVisits]
  | cons r rs ih =>
    intro t entered hin hout hacc
    rw [requestAll_cons]
    cases ha : transitionAllowed t.State r.1 with
    | false =>
      have hmem : (t.State, r.1) ∉ transitionTable := by
        rw [← transitionAllowed_iff_mem, ha]; simp
      rw [completedVisits_rejected _ _ _ _ hmem] at hacc ⊢
      rw [stateTransition_of_not_allowed r.2 t r.1 ha]
      exact ih t entered hin hout hacc
    | true =>
      have hmem : (t.State, r.1) ∈ transitionTable := (transitionAllowed_iff_mem _ _).1 ha
      rw [stateTransition_of_allowed r.2 t r.1 ha]
      by_cases hdst : r.1 = InProgress
      · rw [completedVisits_enter _ _ _ _ hmem hdst] at hacc ⊢
        rw [if_pos hdst]
        exact ih { { t with Started := time.Now r.2 } with State := r.1 } (some r.2)
          (fun _ => ⟨r.2, rfl, rfl⟩) (fun h => absurd hdst h) hacc
      · by_cases hsrc : t.State = InProgress
        · obtain ⟨a, he, hs⟩ := hin hsrc
          subst he
          rw [completedVisits_leave _ _ _ _ hmem hdst] at hacc ⊢
          rw [if_neg hdst, if_pos hsrc]
          simp only [List.map_cons, List.sum_cons, accumulatesInRange, Bool.and_eq_true,
            decide_eq_true_eq] at hacc ⊢
          obtain ⟨⟨hfit, hsum⟩, hrest⟩ := hacc
          have hw : time.wrap64 (t.Worked + time.Since r.2 t.Started)
              = t.Worked + visitDuration (a, r.2) := by
            rw [hs]
            unfold visitDuration at hfit hsum ⊢
            rw [Since_of_fits _ _ hfit, wrap64_of_fits _ hsum]
          have h := ih { { t with Worked := time.wrap64 (t.Worked + time.Since r.2 t.Started),
                                  Started := time.Time.zero } with State := r.1 } none
            (fun h => absurd h hdst) (fun _ => rfl)
            (by show accumulatesInRange (time.wrap64 _) _ = true
                rw [hw]; exact hrest)
          rw [h]
          show time.wrap64 _ + _ = _
          rw [hw, add_assoc]
        · rw [hout hsrc] at hacc ⊢
          rw [completedVisits_other _ _ _ hmem hdst] at hacc ⊢
          rw [if_neg hdst, if_neg hsrc]
          exact ih { t with State := r.1 } none (fun h => absurd h hdst) (fun _ => rfl) hacc

theorem digitsValue_ge (ds : List Char) : ∀ n : Nat, n ≤ digitsValue ds n := by
  induction ds with
  | nil => intro n; exact Nat.le_refl n
  | cons c cs ih =>
    intro n
    have h := ih (n * 10 + strconv.digitValue c)
    simp only [digitsValue]
    omega

theorem parseUintLoop_ok (ds : List Char) :
    ∀ n : Nat, ds.all strconv.isDigit = true → digitsValue ds n ≤ strconv.maxUint64 →
      strconv.parseUintLoop ds n = (digitsValue ds n, none) := by
  induction ds with
  | nil => intro n _ _; rfl
  | cons c cs ih =>
    intro n hall hle
    simp only [List.all_cons, Bool.and_eq_true] at hall
    have hge := digitsValue_ge cs (n * 10 + strconv.digitValue c)
    simp only [digitsValue] at hle ⊢
    unfold strconv.maxUint64 at hle
    have h1 : ¬ (1844674407370955162 ≤ n) := by omega
    have h2 : ¬ (strconv.maxUint64 < n * 10 + strconv.digitValue c) := by
      unfold strconv.maxUint64; omega
    simp only [strconv.parseUintLoop, hall.1, Bool.not_true, Bool.false_eq_true, if_false,
      if_neg h1, if_neg h2]
    exact ih _ hall.2 (by unfold strconv.maxUint64; exact hle)

theorem parseUintLoop_cases (ds : List Char) :
    ∀ n : Nat, n ≤ strconv.maxUint64 →
      strconv.parseUintLoop ds n = (0, some strconv.NumError.ErrSyntax) ∨
      strconv.parseUintLoop ds n = (strconv.maxUint64, some strconv.NumError.ErrRange) ∨
      (ds.all strconv.isDigit = true ∧ digitsValue ds n ≤ strconv.maxUint64) := by
  induction ds with
  | nil => intro n hn; exact Or.inr (Or.inr ⟨rfl, hn⟩)
  | cons c cs ih =>
    intro n _
    simp only [strconv.parseUintLoop]
    by_cases hd : strconv.isDigit c = true
    · simp only [hd, Bool.not_true, Bool.false_eq_true, if_false]
      by_cases h1 : 1844674407370955162 ≤ n
      · rw [if_pos h1]; exact Or.inr (Or.inl rfl)
      · rw [if_neg h1]
        by_cases h2 : strconv.maxUint64 < n * 10 + strconv.digitValue c
        · rw [if_pos h2]; exact Or.inr (Or.inl rfl)
        · rw [if_neg h2]
          rcases ih (n * 10 + strconv.digitValue c) (by omega) with h | h | h
          · exact Or.inl h
          · exact Or.inr (Or.inl h)
          · refine Or.inr (Or.inr ⟨?_, ?_⟩)
            · simp only [List.all_cons, hd, h.1, Bool.and_self]
            · simpa only [digitsValue] using h.2
    · simp only [Bool.not_eq_true] at hd
      simp [hd]

/-- What `ParseUint` returns: the value of the digits when the text is a
non-empty run of digits whose value fits `uint64`, an error otherwise. -/
theorem ParseUint_eq (ds : List Char) :
    (ds ≠ [] ∧ ds.all strconv.isDigit = true ∧ digitsValue ds 0 ≤ strconv.maxUint64 ∧
      strconv.ParseUint ds = (digitsValue ds 0, none)) ∨
    (¬ (ds ≠ [] ∧ ds.all strconv.isDigit = true ∧ digitsValue ds 0 ≤ strconv.maxUint64) ∧
      (strconv.ParseUint ds = (0, some strconv.NumError.ErrSyntax) ∨
       strconv.ParseUint ds = (strconv.maxUint64, some strconv.NumError.ErrRange))) := by
  cases ds with
  | nil => exact Or.inr ⟨by simp, Or.inl rfl⟩
  | cons c cs =>
    by_cases h : (c :: cs).all strconv.isDigit = true ∧
        digitsValue (c :: cs) 0 ≤ strconv.maxUint64
    · exact Or.inl ⟨by simp, h.1, h.2, parseUintLoop_ok (c :: cs) 0 h.1 h.2⟩
    · refine Or.inr ⟨fun hh => h ⟨hh.2.1, hh.2.2⟩, ?_⟩
      rcases parseUintLoop_cases (c :: cs) 0 (by unfold strconv.maxUint64; omega) with h1 | h1 | h1
      · exact Or.inl h1
      · exact Or.inr h1
      · exact absurd h1 h

theorem signedResult_ok_iff (neg : Bool) (ds : List Char) (p : Int) :
    strconv.signedResult neg (strconv.ParseUint ds) = (p, none) ↔
    (ds ≠ [] ∧ ds.all strconv.isDigit = true) ∧
      p = (if neg then -(digitsValue ds 0 : Int) else (digitsValue ds 0 : Int)) ∧
      -9223372036854775808 ≤ p ∧ p ≤ 9223372036854775807 := by
  unfold strconv.signedResult
  rcases ParseUint_eq ds with ⟨h1, h2, h3, h4⟩ | ⟨h1, h4 | h4⟩
  · rw [h4]
    unfold strconv.maxUint64 at h3
    cases neg
    · simp only [reduceCtorEq, if_false, Bool.not_false, Bool.true_and, decide_eq_true_eq,
        Bool.false_and, Bool.false_eq_true]
      split_ifs with h5
      · simp only [Prod.mk.injEq, reduceCtorEq, and_false, false_iff]
        intro h6; omega
      · simp only [Prod.mk.injEq, and_true]
        constructor
        · intro h6; exact ⟨⟨h1, h2⟩, h6.symm, by omega, by omega⟩
        · intro h6; exact h6.2.1.symm
    · simp only [reduceCtorEq, if_false, Bool.not_true, Bool.true_and, decide_eq_true_eq,
        Bool.false_and, Bool.false_eq_true, if_true]
      split_ifs with h5
      · simp only [Prod.mk.injEq, reduceCtorEq, and_false, false_iff]
        intro h6; omega
      · simp only [Prod.mk.injEq, and_true]
        constructor
        · intro h6; exact ⟨⟨h1, h2⟩, h6.symm, by omega, by omega⟩
        · intro h6; exact h6.2.1.symm
  · rw [h4]
    simp only [if_true, Prod.mk.injEq, reduceCtorEq, and_false, false_iff]
    intro h6
    apply h1
    refine ⟨h6.1.1, h6.1.2, ?_⟩
    unfold strconv.maxUint64
    have h7 := h6.2.1
    cases neg <;> simp only [if_true, if_false, Bool.false_eq_true] at h7 <;> omega
  · rw [h4]
    have hl : ¬ ((ds ≠ [] ∧ ds.all strconv.isDigit = true) ∧
        p = (if neg then -(digitsValue ds 0 : Int) else (digitsValue ds 0 : Int)) ∧
        -9223372036854775808 ≤ p ∧ p ≤ 9223372036854775807) := by
      intro h6
      apply h1
      refine ⟨h6.1.1, h6.1.2, ?_⟩
      unfold strconv.maxUint64
      have h7 := h6.2.1
      cases neg <;> simp only [if_true, if_false, Bool.false_eq_true] at h7 <;> omega
    simp only [hl, iff_false]
    unfold strconv.maxUint64
    cases neg <;> simp

/-- When `strconv.Atoi` succeeds: exactly on the decimal integers that fit
`int64`, with their value. -/
theorem Atoi_ok_iff (s : String) (p : Int) :
    strconv.Atoi s = (p, none) ↔
      decimalInteger s = some p ∧ -9223372036854775808 ≤ p ∧ p ≤ 9223372036854775807 := by
  unfold strconv.Atoi strconv.ParseInt decimalInteger
  cases s.data with
  | nil => simp
  | cons c cs =>
    simp only
    by_cases hp : c = Char.ofNat 43
    · have hm : ¬ (c = Char.ofNat 45) := by rw [hp]; decide
      rw [if_pos hp, if_neg hm, if_pos hp, signedResult_ok_iff]
      by_cases hd : cs ≠ [] ∧ cs.all strconv.isDigit = true
      · simp only [hd, ne_eq, not_false_eq_true, and_self, if_true, Bool.false_eq_true, if_false,
          Option.some.injEq, true_and]
        constructor
        · rintro ⟨h1, h2⟩; exact ⟨h1.symm, h2⟩
        · rintro ⟨h1, h2⟩; exact ⟨h1.symm, h2⟩
      · simp only [hd, if_false, false_and, reduceCtorEq]
    · rw [if_neg hp]
      by_cases hm : c = Char.ofNat 45
      · rw [if_pos hm, if_pos hm, signedResult_ok_iff]
        by_cases hd : cs ≠ [] ∧ cs.all strconv.isDigit = true
        · simp only [hd, ne_eq, not_false_eq_true, and_self, if_true,
            Option.some.injEq, true_and]
          constructor
          · rintro ⟨h1, h2⟩; exact ⟨h1.symm, h2⟩
          · rintro ⟨h1, h2⟩; exact ⟨h1.symm, h2⟩
        · simp only [hd, if_false, false_and, reduceCtorEq]
      · rw [if_neg hm, if_neg hm, if_neg hp, signedResult_ok_iff]
        by_cases hd : (c :: cs).all strconv.isDigit = true
        · simp only [hd, ne_eq, reduceCtorEq, not_false_eq_true, and_self, if_true,
            Bool.false_eq_true, if_false, Option.some.injEq, true_and]
          constructor
          · rintro ⟨h1, h2⟩; exact ⟨h1.symm, h2⟩
          · rintro ⟨h1, h2⟩; exact ⟨h1.symm, h2⟩
        · simp only [hd, if_false, and_false, false_and, reduceCtorEq, Bool.false_eq_true]

theorem hexDigit_mem (n : Nat) (h : n < 16) : fmt.hexDigit n ∈ fmt.ldigits := by
  have key : ∀ k : Fin 16, fmt.hexDigit k.val ∈ fmt.ldigits := by decide
  exact key ⟨n, h⟩

theorem sprintfHex_length (bs : List (Fin 256)) :
    (fmt.sprintfHex bs).length = 2 * bs.length := by
  induction bs with
  | nil => rfl
  | cons b bs ih =>
    simp only [fmt.sprintfHex, List.flatMap_cons, List.length_append, List.length_cons,
      List.length_nil] at ih ⊢
    omega

theorem sprintfHex_mem (bs : List (Fin 256)) :
    ∀ c ∈ fmt.sprintfHex bs, c ∈ fmt.ldigits := by
  intro c hc
  simp only [fmt.sprintfHex, List.mem_flatMap, List.mem_cons, List.mem_singleton,
    List.not_mem_nil, or_false] at hc
  obtain ⟨b, _, h | h⟩ := hc
  · rw [h]; exact hexDigit_mem _ (by have := b.isLt; omega)
  · rw [h]; exact hexDigit_mem _ (by omega)

/-- The slice of `UpdateID` is always within bounds: the hexadecimal text of
a digest has 64 characters. -/
theorem UpdateID_eq (Sum256 : List (Fin 256) → sha256.Digest) (t : Task) :
    UpdateID Sum256 t =
      some { t with ID := String.mk ((fmt.sprintfHex (Sum256 (bytesOf (t.Created.Format time.RFC3339))).bytes).take 10) } := by
  unfold UpdateID sliceTo
  have hlen := sprintfHex_length (Sum256 (bytesOf (t.Created.Format time.RFC3339))).bytes
  rw [(Sum256 (bytesOf (t.Created.Format time.RFC3339))).size] at hlen
  simp only [hlen, show (10 : Nat) ≤ 2 * 32 by decide, if_true]

theorem UpdatePath_of_resolver_error (ModuleDir : String → String → String × error)
    (t : Task) (h : (ModuleDir "task" (t.Created.Format yearLayout)).2 ≠ none) :
    UpdatePath ModuleDir t = ((ModuleDir "task" (t.Created.Format yearLayout)).2, t) := by
  unfold UpdatePath
  rw [if_pos h]

theorem UpdatePath_of_resolver_ok (ModuleDir : String → String → String × error)
    (t : Task) (h : (ModuleDir "task" (t.Created.Format yearLayout)).2 = none) :
    UpdatePath ModuleDir t =
      (none, { t with Path := filepath.Join (ModuleDir "task" (t.Created.Format yearLayout)).1 (t.Created.Format fileLayout) }) := by
  unfold UpdatePath
  rw [if_neg (not_not.2 h)]

/-- The RFC 3339 text of a time is determined by its date, its clock and its
zone offset. -/
theorem Format_RFC3339_congr (a b : time.Time) (hdate : a.Date = b.Date)
    (hclock : a.Clock = b.Clock) (hoffset : a.offset = b.offset) :
    a.Format time.RFC3339 = b.Format time.RFC3339 := by
  simp [time.Time.Format, time.RFC3339, time.formatChunk, hdate, hclock, hoffset]

theorem cycle_arith (D n1 d1 n2 m2 d2 n3 d3 n4 m4 d4 : Nat)
    (h1 : n1 = D / 146097) (h2 : d1 = D - 146097 * n1) (h3 : n2 = d1 / 36524)
    (h4 : m2 = n2 - n2 / 4) (h5 : d2 = d1 - 36524 * m2) (h6 : n3 = d2 / 1461)
    (h7 : d3 = d2 - 1461 * n3) (h8 : n4 = d3 / 365) (h9 : m4 = n4 - n4 / 4)
    (h10 : d4 = d3 - 365 * m4) :
    d4 ≤ 365 ∧
    (d4 = 365 → time.isLeap (((400 * n1 + 100 * m2 + 4 * n3 + m4 : Nat) : Int)
      + time.absoluteZeroYear) = true) := by
  have hd1 : d1 < 146097 := by omega
  have hm2 : m2 ≤ 3 := by omega
  have hd2 : d2 ≤ 36524 := by omega
  have hd2b : d2 = 36524 → m2 = 3 := by omega
  have hn3 : n3 ≤ 24 := by omega
  have hd3 : d3 < 1461 := by omega
  have hm4 : m4 ≤ 3 := by omega
  refine ⟨by omega, ?_⟩
  intro h
  have hm4b : m4 = 3 := by omega
  have hd3b : d3 = 1460 := by omega
  have hcase : n3 ≤ 23 ∨ (n3 = 24 ∧ m2 = 3) := by omega
  unfold time.isLeap time.absoluteZeroYear
  simp only [Bool.and_eq_true, Bool.or_eq_true, decide_eq_true_eq, ne_eq, decide_not,
    Bool.not_eq_true', decide_eq_false_iff_not]
  push_cast
  subst hm4b
  constructor
  · omega
  · rcases hcase with hc | ⟨hc1, hc2⟩
    · left; omega
    · right; subst hc1; subst hc2; omega

theorem absYearDay_bound (abs : Nat) :
    (time.absYearDay abs).2 ≤ 365 ∧
    ((time.absYearDay abs).2 = 365 → time.isLeap (time.absYearDay abs).1 = true) := by
  unfold time.absYearDay
  exact cycle_arith (abs / 86400) _ _ _ _ _ _ _ _ _ _ rfl rfl rfl rfl rfl rfl rfl rfl rfl rfl

theorem monthDay_bound (day month : Nat) (hday : day ≤ 364) (hm : month = day / 31) :
    (day ≥ time.daysBefore.getD (month + 1) 0 →
      month + 2 ≤ 12 ∧ day - time.daysBefore.getD (month + 1) 0 + 1 ≤ 31) ∧
    (¬ day ≥ time.daysBefore.getD (month + 1) 0 →
      month + 1 ≤ 12 ∧ day - time.daysBefore.getD month 0 + 1 ≤ 31) := by
  have hmonth : month ≤ 11 := by omega
  interval_cases month <;> simp only [time.daysBefore, List.getD_cons_succ,
    List.getD_cons_zero] <;> omega

theorem absDate_bound (abs : Nat) :
    1 ≤ (time.absDate abs).2.1 ∧ (time.absDate abs).2.1 ≤ 12 ∧
    1 ≤ (time.absDate abs).2.2 ∧ (time.absDate abs).2.2 ≤ 31 := by
  obtain ⟨hd, hl⟩ := absYearDay_bound abs
  unfold time.absDate
  simp only
  generalize (time.absYearDay abs).2 = d at hd hl ⊢
  generalize time.isLeap (time.absYearDay abs).1 = leap at hl ⊢
  by_cases h1 : (leap && decide (d = 31 + 29 - 1)) = true
  · rw [if_pos h1]
    simp
  · rw [if_neg h1]
    have hday : (if (leap && decide (d > 31 + 29 - 1)) = true then d - 1 else d) ≤ 364 := by
      cases leap
      · simp only [Bool.false_and, Bool.false_eq_true, if_false]
        by_contra hc
        have : d = 365 := by omega
        exact absurd (hl this) (by decide)
      · simp only [Bool.true_and, decide_eq_true_eq]
        split_ifs <;> omega
    generalize (if (leap && decide (d > 31 + 29 - 1)) = true then d - 1 else d) = day at hday ⊢
    obtain ⟨hA, hB⟩ := monthDay_bound day (day / 31) hday rfl
    by_cases h2 : day ≥ time.daysBefore.getD (day / 31 + 1) 0
    · rw [if_pos h2]
      have := hA h2
      simp only
      omega
    · rw [if_neg h2]
      have := hB h2
      simp only
      omega

theorem absClock_bound (abs : Nat) :
    (time.absClock abs).1 < 24 ∧ (time.absClock abs).2.1 < 60 ∧ (time.absClock abs).2.2 < 60 := by
  unfold time.absClock
  simp only
  omega

theorem appendInt_length (x : Int) (w : Nat) (h0 : 0 ≤ x) (hw : 0 < w)
    (hlt : x.natAbs < 10 ^ w) : (time.appendInt x w).length = w := by
  have hlen := Nat.toDigitsCore_length 10 (by decide) (x.natAbs + 1) x.natAbs w hlt hw
  unfold time.appendInt
  simp only [if_neg (not_lt.2 h0), List.nil_append, List.length_append, List.length_replicate,
    Nat.toDigits]
  omega

theorem appendInt_two_length (n : Nat) (h : n < 100) :
    (time.appendInt (n : Int) 2).length = 2 :=
  appendInt_length (n : Int) 2 (Int.ofNat_nonneg n) (by decide) (by
    rw [Int.natAbs_ofNat]; exact h)

theorem digitChar_props (d : Nat) (h : d < 10) :
    strconv.digitValue (Nat.digitChar d) = d ∧ strconv.isDigit (Nat.digitChar d) = true := by
  have key : ∀ k : Fin 10, strconv.digitValue (Nat.digitChar k.val) = k.val ∧
      strconv.isDigit (Nat.digitChar k.val) = true := by decide
  exact key ⟨d, h⟩

theorem toDigitsCore_value (f : Nat) :
    ∀ (n : Nat) (acc : List Char), n < f →
      digitsValue (Nat.toDigitsCore 10 f n acc) 0 = digitsValue acc n := by
  induction f with
  | zero => intro n acc h; omega
  | succ f ih =>
    intro n acc h
    have hd := (digitChar_props (n % 10) (Nat.mod_lt n (by decide))).1
    simp only [Nat.toDigitsCore]
    split_ifs with h0
    · simp only [digitsValue, hd]
      congr 1
      omega
    · rw [ih (n / 10) _ (by omega)]
      simp only [digitsValue, hd]
      congr 1
      omega

theorem toDigitsCore_all_digits (f : Nat) :
    ∀ (n : Nat) (acc : List Char), (∀ c ∈ acc, strconv.isDigit c = true) →
      ∀ c ∈ Nat.toDigitsCore 10 f n acc, strconv.isDigit c = true := by
  induction f with
  | zero => intro n acc hacc c hc; exact hacc c hc
  | succ f ih =>
    intro n acc hacc c hc
    have hd := (digitChar_props (n % 10) (Nat.mod_lt n (by decide))).2
    have hacc2 : ∀ c ∈ Nat.digitChar (n % 10) :: acc, strconv.isDigit c = true := by
      intro c hc
      rcases List.mem_cons.1 hc with h | h
      · rw [h]; exact hd
      · exact hacc c h
    simp only [Nat.toDigitsCore] at hc
    split_ifs at hc with h0
    · exact hacc2 c hc
    · exact ih (n / 10) _ hacc2 c hc

theorem toDigits_value (n : Nat) : digitsValue (Nat.toDigits 10 n) 0 = n :=
  toDigitsCore_value (n + 1) n [] (Nat.lt_succ_self n)

theorem toDigits_all_digits (n : Nat) : ∀ c ∈ Nat.toDigits 10 n, strconv.isDigit c = true :=
  toDigitsCore_all_digits (n + 1) n [] (fun _ h => absurd h (List.not_mem_nil _))

theorem toString_nat_data (n : Nat) : (toString n).data = Nat.toDigits 10 n := rfl

theorem toString_int_data (n : Int) :
    (toString n).data =
      if n < 0 then '-' :: Nat.toDigits 10 n.natAbs else Nat.toDigits 10 n.natAbs := by
  cases n with
  | ofNat m => 
    have h : ¬ (Int.ofNat m < 0) := by simp
    rw [if_neg h]
    rfl
  | negSucc m =>
    have h : Int.negSucc m < 0 := Int.negSucc_lt_zero m
    rw [if_pos h]
    rfl

theorem toString_int_injective (a b : Int) (h : toString a = toString b) : a = b := by
  have hd : (toString a).data = (toString b).data := by rw [h]
  rw [toString_int_data, toString_int_data] at hd
  have hva := toDigits_value a.natAbs
  have hvb := toDigits_value b.natAbs
  have hminus : strconv.isDigit '-' = false := by decide
  split_ifs at hd with ha hb hb
  · have := List.tail_eq_of_cons_eq hd
    rw [this] at hva
    omega
  · exfalso
    have hmem : '-' ∈ Nat.toDigits 10 b.natAbs := by rw [← hd]; exact List.mem_cons_self _ _
    have := toDigits_all_digits _ _ hmem
    rw [hminus] at this
    exact absurd this (by decide)
  · exfalso
    have hmem : '-' ∈ Nat.toDigits 10 a.natAbs := by rw [hd]; exact List.mem_cons_self _ _
    have := toDigits_all_digits _ _ hmem
    rw [hminus] at this
    exact absurd this (by decide)
  · rw [hd] at hva
    omega

theorem toString_int_no_space (n : Int) : ' ' ∉ (toString n).data := by
  have hsp : strconv.isDigit ' ' = false := by decide
  rw [toString_int_data]
  intro hmem
  have hdig : ' ' ∈ Nat.toDigits 10 n.natAbs := by
    split_ifs at hmem
    · rcases List.mem_cons.1 hmem with h | h
      · exact absurd h (by decide)
      · exact h
    · exact hmem
  have := toDigits_all_digits _ _ hdig
  rw [hsp] at this
  exact absurd this (by decide)

theorem State_named (s : Int) (h0 : 0 ≤ s) (h5 : s ≤ 5) :
    ∃ k : Fin 6, s = ((k.val : Nat) : Int) :=
  ⟨⟨s.toNat, by omega⟩, by simp only; omega⟩

theorem State_String_other (s : Int) (h : ¬ (0 ≤ s ∧ s ≤ 5)) :
    State.String s = "State(" ++ toString s ++ ")" := by
  have e0 : ¬ (s = (0 : Int)) := by omega
  have e1 : ¬ (s = (1 : Int)) := by omega
  have e2 : ¬ (s = (2 : Int)) := by omega
  have e3 : ¬ (s = (3 : Int)) := by omega
  have e4 : ¬ (s = (4 : Int)) := by omega
  have e5 : ¬ (s = (5 : Int)) := by omega
  unfold State.String
  rw [if_neg e1, if_neg e0, if_neg e2, if_neg e3, if_neg e4, if_neg e5]

theorem State_String_no_space (s : Int) : ' ' ∉ (State.String s).data := by
  by_cases h : 0 ≤ s ∧ s ≤ 5
  · obtain ⟨k, hk⟩ := State_named s h.1 h.2
    have key : ∀ k : Fin 6, ' ' ∉ (State.String ((k.val : Nat) : Int)).data := by decide
    rw [hk]
    exact key k
  · rw [State_String_other s h]
    simp only [String.data_append, List.mem_append, not_or]
    exact ⟨⟨by decide, toString_int_no_space s⟩, by decide⟩

theorem State_String_injective (a b : Int) (h : State.String a = State.String b) : a = b := by
  have named_inj : ∀ j k : Fin 6,
      State.String ((j.val : Nat) : Int) = State.String ((k.val : Nat) : Int) → j = k := by
    decide
  have named_head : ∀ k : Fin 6,
      (State.String ((k.val : Nat) : Int)).data.head? ≠ some 'S' := by decide
  have other_head : ∀ s : Int, ¬ (0 ≤ s ∧ s ≤ 5) →
      (State.String s).data.head? = some 'S' := by
    intro s hs
    rw [State_String_other s hs]
    rfl
  by_cases ha : 0 ≤ a ∧ a ≤ 5
  · obtain ⟨j, hj⟩ := State_named a ha.1 ha.2
    by_cases hb : 0 ≤ b ∧ b ≤ 5
    · obtain ⟨k, hk⟩ := State_named b hb.1 hb.2
      rw [hj, hk] at h
      rw [hj, hk, named_inj j k h]
    · exfalso
      have h1 := named_head j
      rw [← hj, h, other_head b hb] at h1
      exact h1 rfl
  · by_cases hb : 0 ≤ b ∧ b ≤ 5
    · exfalso
      obtain ⟨k, hk⟩ := State_named b hb.1 hb.2
      have h1 := named_head k
      rw [← hk, ← h, other_head a ha] at h1
      exact h1 rfl
    · rw [State_String_other a ha, State_String_other b hb] at h
      have hd := congrArg String.data h
      simp only [String.data_append, List.append_assoc] at hd
      have h2 := List.append_cancel_left hd
      have h3 := List.append_cancel_right h2
      exact toString_int_injective a b (String.ext h3)

theorem split_at_space (a : List Char) :
    ∀ (b r1 r2 : List Char), ' ' ∉ a → ' ' ∉ b → a ++ ' ' :: r1 = b ++ ' ' :: r2 →
      a = b ∧ r1 = r2 := by
  induction a with
  | nil =>
    intro b r1 r2 _ hb h
    cases b with
    | nil => exact ⟨rfl, List.tail_eq_of_cons_eq h⟩
    | cons c cs =>
      exfalso
      have hc : ' ' = c := List.head_eq_of_cons_eq h
      exact hb (by rw [← hc]; exact List.mem_cons_self _ _)
  | cons x xs ih =>
    intro b r1 r2 ha hb h
    cases b with
    | nil =>
      exfalso
      have hc : x = ' ' := List.head_eq_of_cons_eq h
      exact ha (by rw [hc]; exact List.mem_cons_self _ _)
    | cons c cs =>
      have hc : x = c := List.head_eq_of_cons_eq h
      have ht : xs ++ ' ' :: r1 = cs ++ ' ' :: r2 := List.tail_eq_of_cons_eq h
      obtain ⟨h1, h2⟩ := ih cs r1 r2 (fun hm => ha (List.mem_cons_of_mem _ hm))
        (fun hm => hb (List.mem_cons_of_mem _ hm)) ht
      exact ⟨by rw [hc, h1], h2⟩

/-- The error text of a rejected transition determines both states. -/
theorem error_text_injective (a b c d : Int)
    (h : "Cannot transition task from " ++ State.String a ++ " to " ++ State.String b =
      "Cannot transition task from " ++ State.String c ++ " to " ++ State.String d) :
    a = c ∧ b = d := by
  have hd := congrArg String.data h
  simp only [String.data_append, List.append_assoc] at hd
  have h2 := List.append_cancel_left hd
  have h3 := split_at_space (State.String a).data (State.String c).data _ _
    (State_String_no_space a) (State_String_no_space c) h2
  have h4 : (State.String b).data = (State.String d).data := by
    have := h3.2
    simpa using this
  exact ⟨State_String_injective a c (String.ext h3.1),
    State_String_injective b d (String.ext h4)⟩

theorem toDigits_ne_nil (n : Nat) : Nat.toDigits 10 n ≠ [] := by
  unfold Nat.toDigits
  simp only [Nat.toDigitsCore]
  split_ifs with h
  · simp
  · intro hnil
    have hv := toDigitsCore_value n (n / 10) [Nat.digitChar (n % 10)] (by omega)
    have hd := (digitChar_props (n % 10) (Nat.mod_lt n (by decide))).1
    rw [hnil] at hv
    simp only [digitsValue, hd] at hv
    omega

/-- The text printed for an integer is a decimal integer denoting it. -/
theorem decimalInteger_toString (n : Int) : decimalInteger (toString n) = some n := by
  have hdata := toString_int_data n
  have hall := toDigits_all_digits n.natAbs
  have hval := toDigits_value n.natAbs
  have hne := toDigits_ne_nil n.natAbs
  have hall2 : (Nat.toDigits 10 n.natAbs).all strconv.isDigit = true :=
    List.all_eq_true.2 hall
  unfold decimalInteger
  by_cases hneg : n < 0
  · rw [if_pos hneg] at hdata
    rw [hdata]
    simp only [Char.reduceOfNatAux, if_true, ne_eq, hne, not_false_eq_true, hall2, and_self,
      hval, Option.some.injEq]
    show -((n.natAbs : Nat) : Int) = n
    omega
  · rw [if_neg hneg] at hdata
    rw [hdata]
    cases hds : Nat.toDigits 10 n.natAbs with
    | nil => exact absurd hds hne
    | cons c cs =>
      rw [hds] at hall2 hval
      have hc : strconv.isDigit c = true := hall c (by rw [hds]; exact List.mem_cons_self _ _)
      have hm : ¬ (c = Char.ofNat 45) := by
        intro h; rw [h] at hc; exact absurd hc (by decide)
      have hp : ¬ (c = Char.ofNat 43) := by
        intro h; rw [h] at hc; exact absurd hc (by decide)
      simp only [if_neg hm, if_neg hp, hall2, if_true, hval, Option.some.injEq]
      omega

/-! ## Claims -/

/-- C1: for every current and requested state value (any integers),
stateTransition returns no error exactly when the pair (current, requested)
is one of the 14 pairs of the transition table; every self-transition is
rejected. -/
theorem stateTransition_ok_iff_table :
    transitionTable.length = 14 ∧
    (∀ (clk : time.Clock) (t : Task) (newState : State),
      (stateTransition clk t newState).1 = none ↔ (t.State, newState) ∈ transitionTable) ∧
    (∀ (clk : time.Clock) (t : Task), (stateTransition clk t t.State).1 ≠ none) := by
  refine ⟨rfl, ?_, ?_⟩
  · intro clk t newState
    rw [stateTransition_err_none_iff, transitionAllowed_iff_mem]
  · intro clk t
    rw [Ne, stateTransition_err_none_iff]
    unfold transitionAllowed
    split_ifs <;> simp_all

/-- C2: whenever stateTransition returns an error, the task after the call
equals the task before the call, field for field. -/
theorem stateTransition_error_unchanged (clk : time.Clock) (t : Task) (newState : State)
    (h : (stateTransition clk t newState).1 ≠ none) :
    (stateTransition clk t newState).2 = t := by
  cases ha : transitionAllowed t.State newState with
  | false => rw [stateTransition_of_not_allowed clk t newState ha]
  | true => exact absurd ((stateTransition_err_none_iff clk t newState).2 ha) h

/-- Witness for C2: the zero-value task (InProgress) asked to enter InProgress
is rejected and left unchanged. -/
theorem stateTransition_error_unchanged_witness :
    (stateTransition sampleClock zeroTask InProgress).1 ≠ none ∧
    (stateTransition sampleClock zeroTask InProgress).2 = zeroTask :=
  ⟨by decide, stateTransition_error_unchanged sampleClock zeroTask InProgress (by decide)⟩

/-- C3: whenever stateTransition succeeds, State after the call is the
requested state and ID, Created, Due, Priority, Description, Notes and Path
are as before the call. -/
theorem stateTransition_ok_frame (clk : time.Clock) (t : Task) (newState : State)
    (h : (stateTransition clk t newState).1 = none) :
    (stateTransition clk t newState).2.State = newState ∧
    (stateTransition clk t newState).2.ID = t.ID ∧
    (stateTransition clk t newState).2.Created = t.Created ∧
    (stateTransition clk t newState).2.Due = t.Due ∧
    (stateTransition clk t newState).2.Priority = t.Priority ∧
    (stateTransition clk t newState).2.Description = t.Description ∧
    (stateTransition clk t newState).2.Notes = t.Notes ∧
    (stateTransition clk t newState).2.Path = t.Path := by
  have ha := (stateTransition_err_none_iff clk t newState).1 h
  rw [stateTransition_of_allowed clk t newState ha]
  split_ifs <;> simp

/-- Witness for C3: an Assigned task moved to Blocked. -/
theorem stateTransition_ok_frame_witness :
    (stateTransition sampleClock assignedTask Blocked).1 = none ∧
    (stateTransition sampleClock assignedTask Blocked).2.State = Blocked ∧
    (stateTransition sampleClock assignedTask Blocked).2.Description = "write report" :=
  ⟨by decide,
   (stateTransition_ok_frame sampleClock assignedTask Blocked (by decide)).1,
   (stateTransition_ok_frame sampleClock assignedTask Blocked (by decide)).2.2.2.2.2.1⟩

/-- C4: terminal states are absorbing. From a task whose State is Completed
or Deleted, every request of every finite sequence of stateTransition
requests fails, and the task at the end equals the task at the start (so
its State is still the terminal one). -/
theorem terminal_absorbing (t : Task) (reqs : List (State × time.Clock))
    (h : t.State = Completed ∨ t.State = Deleted) :
    (requestAll t reqs).1.length = reqs.length ∧
    (∀ e ∈ (requestAll t reqs).1, e ≠ none) ∧
    (requestAll t reqs).2 = t ∧
    (requestAll t reqs).2.State = t.State := by
  induction reqs with
  | nil => simp [requestAll]
  | cons r rs ih =>
    have hr := stateTransition_of_not_allowed r.2 t r.1 (transitionAllowed_terminal _ _ h)
    simp only [requestAll, hr, List.length_cons, List.mem_cons]
    obtain ⟨h1, h2, h3, _⟩ := ih
    refine ⟨by rw [h1], ?_, h3, by rw [h3]⟩
    intro e he
    rcases he with he | he
    · rw [he]; simp
    · exact h2 e he

/-- Witness for C4: three requests on a Completed task. -/
theorem terminal_absorbing_witness :
    completedTask.State = Completed ∧
    (requestAll completedTask
      [(InProgress, sampleClock), (Assigned, laterClock), (Deleted, laterClock)]).2
      = completedTask :=
  ⟨by decide,
   (terminal_absorbing completedTask
      [(InProgress, sampleClock), (Assigned, laterClock), (Deleted, laterClock)]
      (Or.inl (by decide))).2.2.1⟩

/-- C5: from Assigned, Blocked or Deferred, a transition to InProgress
succeeds, sets Started to exactly the value of time.Now at the clock reading,
and leaves Worked as it was. -/
theorem enter_InProgress (clk : time.Clock) (t : Task)
    (h : t.State = Assigned ∨ t.State = Blocked ∨ t.State = Deferred) :
    (stateTransition clk t InProgress).1 = none ∧
    (stateTransition clk t InProgress).2.Started = time.Now clk ∧
    (stateTransition clk t InProgress).2.Worked = t.Worked := by
  have ha : transitionAllowed t.State InProgress = true := by
    unfold transitionAllowed
    rcases h with h | h | h <;> rw [h] <;> simp
  rw [stateTransition_of_allowed clk t InProgress ha]
  simp

/-- Witness for C5: an Assigned task enters InProgress at `sampleClock`. -/
theorem enter_InProgress_witness :
    assignedTask.State = Assigned ∧
    (stateTransition sampleClock assignedTask InProgress).2.Started = time.Now sampleClock :=
  ⟨by decide, (enter_InProgress sampleClock assignedTask (Or.inl (by decide))).2.1⟩

/-- C7: a successful transition whose source and target both differ from
InProgress is one of Assigned to Blocked/Deferred/Deleted, Blocked to
Deferred/Deleted, Deferred to Blocked/Deleted; it leaves Worked and Started
unchanged, so an empty Started remains empty. -/
theorem between_non_InProgress (clk : time.Clock) (t : Task) (newState : State)
    (hok : (stateTransition clk t newState).1 = none)
    (hsrc : t.State ≠ InProgress) (hdst : newState ≠ InProgress) :
    (t.State, newState) ∈
      [(Assigned, Blocked), (Assigned, Deferred), (Assigned, Deleted), (Blocked, Deferred),
       (Blocked, Deleted), (Deferred, Blocked), (Deferred, Deleted)] ∧
    (stateTransition clk t newState).2.Worked = t.Worked ∧
    (stateTransition clk t newState).2.Started = t.Started ∧
    (t.Started.IsZero = true → (stateTransition clk t newState).2.Started.IsZero = true) := by
  have ha := (stateTransition_err_none_iff clk t newState).1 hok
  have hm := (transitionAllowed_iff_mem _ _).1 ha
  rw [stateTransition_of_allowed clk t newState ha]
  rw [if_neg hdst, if_neg hsrc]
  refine ⟨?_, rfl, rfl, fun hz => hz⟩
  simp only [transitionTable, List.mem_cons, Prod.mk.injEq, List.mem_singleton,
    List.not_mem_nil, or_false] at hm ⊢
  rcases hm with h | h | h | h | h | h | h | h | h | h | h | h | h | h <;>
    obtain ⟨h1, h2⟩ := h <;> simp_all

/-- Witness for C7: an Assigned task moved to Deferred. -/
theorem between_non_InProgress_witness :
    (stateTransition sampleClock assignedTask Deferred).1 = none ∧
    (stateTransition sampleClock assignedTask Deferred).2.Worked = assignedTask.Worked :=
  ⟨by decide,
   (between_non_InProgress sampleClock assignedTask Deferred (by decide) (by decide)
      (by decide)).2.1⟩

/-- C8: the predicate (Started is non-zero if and only if State is
InProgress) is preserved by every stateTransition call, successful or
rejected, for every requested state and every clock reading. -/
theorem startedInvariant_preserved (clk : time.Clock) (t : Task) (newState : State)
    (hinv : startedInvariant t) :
    startedInvariant (stateTransition clk t newState).2 := by
  unfold startedInvariant at hinv ⊢
  cases ha : transitionAllowed t.State newState with
  | false => rw [stateTransition_of_not_allowed clk t newState ha]; exact hinv
  | true =>
    rw [stateTransition_of_allowed clk t newState ha]
    by_cases hdst : newState = InProgress
    · simp [hdst, Now_not_IsZero]
    · by_cases hsrc : t.State = InProgress
      · simp [hdst, hsrc, time.Time.IsZero, time.Time.zero]
      · simp only [if_neg hdst, if_neg hsrc]
        constructor
        · intro hz; exact absurd (hinv.1 hz) hsrc
        · intro hs; exact absurd hs hdst

/-- Witness for C8: a task in progress (Started set) moved to Blocked. -/
theorem startedInvariant_preserved_witness :
    startedInvariant runningTask ∧
    startedInvariant (stateTransition sampleClock runningTask Blocked).2 :=
  ⟨by decide, startedInvariant_preserved sampleClock runningTask Blocked (by decide)⟩

/-- C6 (as it holds): leaving InProgress for Assigned, Blocked, Completed or
Deferred always succeeds and clears Started. Worked becomes the int64 sum
(with wrap-around) of its previous value and the elapsed time now - Started
saturated to the range of a Duration, the elapsed time being measured on the
monotonic clock when Started carries a monotonic reading and on the wall
clock otherwise; so Worked becomes its previous value plus exactly that
elapsed time whenever the elapsed time and the new total both fit in an
int64 Duration. -/
theorem leave_InProgress_worked (clk : time.Clock) (t : Task) (newState : State)
    (hsrc : t.State = InProgress)
    (hdst : newState = Assigned ∨ newState = Blocked ∨ newState = Completed ∨
      newState = Deferred) :
    (stateTransition clk t newState).1 = none ∧
    (stateTransition clk t newState).2.Started = time.Time.zero ∧
    (stateTransition clk t newState).2.Started.IsZero = true ∧
    (stateTransition clk t newState).2.Worked =
      time.wrap64 (t.Worked + time.saturate (time.elapsedSince clk t.Started)) ∧
    (time.fitsDuration (time.elapsedSince clk t.Started) →
      time.fitsDuration (t.Worked + time.elapsedSince clk t.Started) →
      (stateTransition clk t newState).2.Worked =
        t.Worked + time.elapsedSince clk t.Started) := by
  rw [stateTransition_leave clk t newState hsrc hdst]
  refine ⟨rfl, rfl, rfl, ?_, ?_⟩
  · show time.wrap64 (t.Worked + time.Since clk t.Started) = _
    rw [Since_eq]
  · intro hfit hsum
    show time.wrap64 (t.Worked + time.Since clk t.Started) = _
    rw [Since_of_fits _ _ hfit, wrap64_of_fits _ hsum]

/-- Witness for C6: a task in progress since process start, with a monotonic
reading in Started, is completed at the clock of the year 2160, five seconds
later on the monotonic clock: five seconds are added to Worked. -/
theorem leave_InProgress_worked_witness :
    runningTask.State = InProgress ∧
    time.elapsedSince clock2160 runningTask.Started = 5000000000 ∧
    (stateTransition clock2160 runningTask Completed).2.Worked = 3605000000000 :=
  ⟨by decide, by decide,
   ((leave_InProgress_worked clock2160 runningTask Completed (by decide)
      (Or.inr (Or.inr (Or.inl (by decide))))).2.2.2.2 (by decide) (by decide)).trans
      (by decide)⟩

/-- C6 (as stated) fails on the zero-value task: it is InProgress with the
zero Started, so at 2024-03-05T07:08:09Z the elapsed time is about 2023
years, which no Duration holds; the transition to Assigned succeeds and
Worked becomes the largest Duration instead of the elapsed time. -/
theorem leave_InProgress_saturates :
    zeroTask.State = InProgress ∧
    (stateTransition sampleClock zeroTask Assigned).1 = none ∧
    zeroTask.Worked + time.elapsedSince sampleClock zeroTask.Started
      = 63845219289000000000 ∧
    (stateTransition sampleClock zeroTask Assigned).2.Worked = 9223372036854775807 ∧
    (stateTransition sampleClock zeroTask Assigned).2.Worked ≠
      zeroTask.Worked + time.elapsedSince sampleClock zeroTask.Started := by
  decide

/-- C9 (as it holds): Worked after a stateTransition call (successful or
rejected) is at least Worked before it whenever, for a task that is
InProgress, time.Since(Started) is not negative and Worked plus it fits in
an int64 Duration; for a task that is not InProgress, and on every rejected
call, Worked is unchanged. -/
theorem worked_nondecreasing (clk : time.Clock) (t : Task) (newState : State) :
    ((t.State = InProgress →
        0 ≤ time.Since clk t.Started ∧
        time.fitsDuration (t.Worked + time.Since clk t.Started)) →
      t.Worked ≤ (stateTransition clk t newState).2.Worked) ∧
    (t.State ≠ InProgress → (stateTransition clk t newState).2.Worked = t.Worked) ∧
    ((stateTransition clk t newState).1 ≠ none →
      (stateTransition clk t newState).2.Worked = t.Worked) := by
  cases ha : transitionAllowed t.State newState with
  | false =>
    rw [stateTransition_of_not_allowed clk t newState ha]
    exact ⟨fun _ => le_refl _, fun _ => rfl, fun _ => rfl⟩
  | true =>
    rw [stateTransition_of_allowed clk t newState ha]
    by_cases hdst : newState = InProgress
    · rw [if_pos hdst]
      exact ⟨fun _ => le_refl _, fun _ => rfl, fun _ => rfl⟩
    · by_cases hsrc : t.State = InProgress
      · rw [if_neg hdst, if_pos hsrc]
        refine ⟨?_, fun h => absurd hsrc h, fun h => absurd rfl h⟩
        intro h
        obtain ⟨h1, h2⟩ := h hsrc
        show t.Worked ≤ time.wrap64 (t.Worked + time.Since clk t.Started)
        rw [wrap64_of_fits _ h2]
        omega
      · rw [if_neg hdst, if_neg hsrc]
        exact ⟨fun _ => le_refl _, fun _ => rfl, fun _ => rfl⟩

/-- Witness for C9: a task in progress for five seconds moved to Assigned,
and an Assigned task moved to Blocked. -/
theorem worked_nondecreasing_witness :
    (0 ≤ time.Since sampleClock runningTask.Started ∧
      time.fitsDuration (runningTask.Worked + time.Since sampleClock runningTask.Started)) ∧
    runningTask.Worked ≤ (stateTransition sampleClock runningTask Assigned).2.Worked ∧
    assignedTask.State ≠ InProgress ∧
    (stateTransition sampleClock assignedTask Blocked).2.Worked = assignedTask.Worked :=
  ⟨by decide,
   (worked_nondecreasing sampleClock runningTask Assigned).1 (fun _ => by decide),
   by decide,
   (worked_nondecreasing sampleClock assignedTask Blocked).2.1 (by decide)⟩

/-- C9 (as stated) fails when the clock reads earlier than Started: a task
in progress whose stored Started lies ten seconds after the clock reading
moves to Assigned and its Worked drops from 3600 s to 3590 s. -/
theorem worked_decreases :
    (stateTransition sampleClock clockSetBackTask Assigned).1 = none ∧
    clockSetBackTask.Worked = 3600000000000 ∧
    (stateTransition sampleClock clockSetBackTask Assigned).2.Worked = 3590000000000 ∧
    ¬ (clockSetBackTask.Worked ≤
        (stateTransition sampleClock clockSetBackTask Assigned).2.Worked) := by
  decide

/-- C10 (as it holds): for a task that starts in a non-InProgress state and
any finite sequence of stateTransition requests with their clock readings,
the final Worked minus the initial Worked equals the sum of b - a over the
completed visits to InProgress (entered at a, left at b), provided every
visit duration and every running total of Worked fit in an int64 Duration;
b - a is measured on the monotonic clock when time.Now at a carries a
monotonic reading and on the wall clock otherwise; rejected requests
contribute nothing. -/
theorem worked_is_sum_of_visits (t : Task) (reqs : List (State × time.Clock))
    (hstate : t.State ≠ InProgress)
    (hrange : accumulatesInRange t.Worked
      ((completedVisits t.State none reqs).map visitDuration) = true) :
    (requestAll t reqs).2.Worked - t.Worked =
      ((completedVisits t.State none reqs).map visitDuration).sum := by
  rw [requestAll_worked reqs t none (fun h => absurd h hstate) (fun _ => rfl) hrange]
  omega

/-- Witness for C10: an Assigned task enters InProgress at process start in
2024, a second request for InProgress is rejected, and it leaves for Blocked
at the clock of the year 2160, five seconds later on the monotonic clock,
and is then deleted: one visit of 5 s. -/
theorem worked_is_sum_of_visits_witness :
    assignedTask.State ≠ InProgress ∧
    ((completedVisits assignedTask.State none
        [(InProgress, startClock), (InProgress, laterClock), (Blocked, clock2160),
         (Deleted, clock2160)]).map visitDuration) = [5000000000] ∧
    (requestAll assignedTask
        [(InProgress, startClock), (InProgress, laterClock), (Blocked, clock2160),
         (Deleted, clock2160)]).2.Worked = 5000000000 ∧
    (requestAll assignedTask
        [(InProgress, startClock), (InProgress, laterClock), (Blocked, clock2160),
         (Deleted, clock2160)]).2.Worked - assignedTask.Worked =
      ((completedVisits assignedTask.State none
        [(InProgress, startClock), (InProgress, laterClock), (Blocked, clock2160),
         (Deleted, clock2160)]).map visitDuration).sum :=
  ⟨by decide, by decide, by decide,
   worked_is_sum_of_visits assignedTask
     [(InProgress, startClock), (InProgress, laterClock), (Blocked, clock2160),
      (Deleted, clock2160)] (by decide) (by decide)⟩

/-- C10 (as stated) fails when the int64 total overflows: a task in state
Assigned with empty Started whose Worked is the largest Duration (the
zero-value task after its move to Assigned) enters InProgress and leaves it
one second later; both requests succeed, the one completed visit lasts 1 s,
and Worked wraps around to a negative value. -/
theorem worked_sum_overflows :
    saturatedTask.State = Assigned ∧ saturatedTask.Started.IsZero = true ∧
    saturatedTask.Worked = 9223372036854775807 ∧
    (requestAll saturatedTask [(InProgress, sampleClock), (Blocked, laterClock)]).1
      = [none, none] ∧
    completedVisits saturatedTask.State none [(InProgress, sampleClock), (Blocked, laterClock)]
      = [(sampleClock, laterClock)] ∧
    ((completedVisits saturatedTask.State none
        [(InProgress, sampleClock), (Blocked, laterClock)]).map visitDuration).sum
      = 1000000000 ∧
    (requestAll saturatedTask [(InProgress, sampleClock), (Blocked, laterClock)]).2.Worked
      - saturatedTask.Worked = -18446744072709551616 ∧
    (requestAll saturatedTask [(InProgress, sampleClock), (Blocked, laterClock)]).2.Worked
      - saturatedTask.Worked ≠
      ((completedVisits saturatedTask.State none
        [(InProgress, sampleClock), (Blocked, laterClock)]).map visitDuration).sum := by
  decide

/-- C11 (as it holds): for a task in state Assigned and clock readings t1,
t2, t3, t4: the transition to InProgress at t1 succeeds and sets Started to
t1; the transition to Blocked at t2 then succeeds and clears Started, and
Worked becomes the int64 sum of its previous value and time.Since(Started),
which is an increase by exactly t2 - t1 provided t2 - t1 and the new total
fit in an int64 Duration (t2 - t1 measured on the monotonic clock when
time.Now at t1 carries a monotonic reading, on the wall clock otherwise);
the transition to Deleted at t3 then succeeds and leaves Worked and Started
as they are; a transition to InProgress at t4 then fails with the
invalid-transition error and leaves the task unchanged, in state Deleted. -/
theorem scenario_assigned_to_deleted (t : Task) (c1 c2 c3 c4 : time.Clock)
    (hstate : t.State = Assigned) :
    (stateTransition c1 t InProgress).1 = none ∧
    (stateTransition c1 t InProgress).2.Started = time.Now c1 ∧
    (stateTransition c2 (stateTransition c1 t InProgress).2 Blocked).1 = none ∧
    (stateTransition c2 (stateTransition c1 t InProgress).2 Blocked).2.Started =
      time.Time.zero ∧
    (stateTransition c2 (stateTransition c1 t InProgress).2 Blocked).2.Worked =
      time.wrap64 (t.Worked + time.Since c2 (time.Now c1)) ∧
    (time.fitsDuration (time.elapsedSince c2 (time.Now c1)) →
      time.fitsDuration (t.Worked + time.elapsedSince c2 (time.Now c1)) →
      (stateTransition c2 (stateTransition c1 t InProgress).2 Blocked).2.Worked =
        t.Worked + time.elapsedSince c2 (time.Now c1)) ∧
    (stateTransition c3
      (stateTransition c2 (stateTransition c1 t InProgress).2 Blocked).2 Deleted).1 = none ∧
    (stateTransition c3
      (stateTransition c2 (stateTransition c1 t InProgress).2 Blocked).2 Deleted).2 =
      { (stateTransition c2 (stateTransition c1 t InProgress).2 Blocked).2 with
        State := Deleted } ∧
    (stateTransition c4 (stateTransition c3
      (stateTransition c2 (stateTransition c1 t InProgress).2 Blocked).2 Deleted).2
      InProgress).1 = some "Cannot transition task from obsolete to in-progress" ∧
    (stateTransition c4 (stateTransition c3
      (stateTransition c2 (stateTransition c1 t InProgress).2 Blocked).2 Deleted).2
      InProgress).2 =
      (stateTransition c3
        (stateTransition c2 (stateTransition c1 t InProgress).2 Blocked).2 Deleted).2 ∧
    (stateTransition c4 (stateTransition c3
      (stateTransition c2 (stateTransition c1 t InProgress).2 Blocked).2 Deleted).2
      InProgress).2.State = Deleted := by
  have h1 : stateTransition c1 t InProgress =
      (none, { t with Started := time.Now c1, State := InProgress }) := by
    rw [stateTransition_of_allowed c1 t InProgress (by rw [hstate]; decide)]
    simp
  have h2 : stateTransition c2 { t with Started := time.Now c1, State := InProgress } Blocked =
      (none, { t with Worked := time.wrap64 (t.Worked + time.Since c2 (time.Now c1)),
                      Started := time.Time.zero, State := Blocked }) := by
    rw [stateTransition_of_allowed c2 _ Blocked]
    · simp
    · rfl
  have h3 : stateTransition c3
      { t with Worked := time.wrap64 (t.Worked + time.Since c2 (time.Now c1)),
               Started := time.Time.zero, State := Blocked } Deleted =
      (none, { t with Worked := time.wrap64 (t.Worked + time.Since c2 (time.Now c1)),
                      Started := time.Time.zero, State := Deleted }) := by
    rw [stateTransition_of_allowed c3 _ Deleted]
    · simp
    · rfl
  have h4 : stateTransition c4
      { t with Worked := time.wrap64 (t.Worked + time.Since c2 (time.Now c1)),
               Started := time.Time.zero, State := Deleted } InProgress =
      (some "Cannot transition task from obsolete to in-progress",
       { t with Worked := time.wrap64 (t.Worked + time.Since c2 (time.Now c1)),
                Started := time.Time.zero, State := Deleted }) := by
    rw [stateTransition_of_not_allowed c4 _ InProgress]
    · simp only [Prod.mk.injEq, and_true]
      decide
    · rfl
  simp only [h1, h2, h3, h4, and_self, true_and, and_true]
  intro hfit hsum
  rw [Since_of_fits _ _ hfit, wrap64_of_fits _ hsum]

/-- Witness for C11: the scenario on the Assigned sample task, entering
InProgress at process start in 2024 and leaving it at the clock of the year
2160, five seconds later on the monotonic clock. -/
theorem scenario_assigned_to_deleted_witness :
    assignedTask.State = Assigned ∧
    time.elapsedSince clock2160 (time.Now startClock) = 5000000000 ∧
    (stateTransition clock2160 (stateTransition startClock assignedTask InProgress).2
      Blocked).2.Worked = 5000000000 :=
  ⟨by decide, by decide,
   ((scenario_assigned_to_deleted assignedTask startClock clock2160 clock2160 clock2160
      (by decide)).2.2.2.2.2.1 (by decide) (by decide)).trans (by decide)⟩

/-- C11 (as stated) fails on the Worked increase when the int64 total
overflows: on the Assigned task with empty Started whose Worked is the
largest Duration, entering InProgress and moving to Blocked one second later
both succeed, but Worked does not increase by that second: it wraps around
to a negative value. -/
theorem scenario_worked_overflows :
    saturatedTask.State = Assigned ∧ saturatedTask.Started.IsZero = true ∧
    (stateTransition sampleClock saturatedTask InProgress).1 = none ∧
    (stateTransition laterClock (stateTransition sampleClock saturatedTask InProgress).2
      Blocked).1 = none ∧
    time.elapsedSince laterClock (time.Now sampleClock) = 1000000000 ∧
    (stateTransition laterClock (stateTransition sampleClock saturatedTask InProgress).2
      Blocked).2.Worked = -9223372035854775809 ∧
    (stateTransition laterClock (stateTransition sampleClock saturatedTask InProgress).2
      Blocked).2.Worked ≠
      saturatedTask.Worked + time.elapsedSince laterClock (time.Now sampleClock) := by
  decide

/-- C12: every rejected stateTransition request returns the error whose text
is exactly "Cannot transition task from L1 to L2", with L1 the State.String
label of the current state and L2 the State.String label of the requested
state; the text determines both states: no other pair of states gives the
same text. -/
theorem rejected_error_text (clk : time.Clock) (t : Task) (newState : State)
    (h : (stateTransition clk t newState).1 ≠ none) :
    (stateTransition clk t newState).1 =
      some ("Cannot transition task from " ++ State.String t.State ++ " to "
        ++ State.String newState) ∧
    (∀ cur req : State,
      "Cannot transition task from " ++ State.String cur ++ " to " ++ State.String req =
        "Cannot transition task from " ++ State.String t.State ++ " to "
          ++ State.String newState →
      cur = t.State ∧ req = newState) := by
  constructor
  · cases ha : transitionAllowed t.State newState with
    | false => rw [stateTransition_of_not_allowed clk t newState ha]
    | true => exact absurd ((stateTransition_err_none_iff clk t newState).2 ha) h
  · intro cur req heq
    exact error_text_injective cur req t.State newState heq

/-- Witness for C12: a Completed task asked to go back to Assigned. -/
theorem rejected_error_text_witness :
    (stateTransition sampleClock completedTask Assigned).1 ≠ none ∧
    (stateTransition sampleClock completedTask Assigned).1 =
      some "Cannot transition task from complete to assigned" :=
  ⟨by decide,
   (rejected_error_text sampleClock completedTask Assigned (by decide)).1.trans (by decide)⟩

/-- C13: State.String gives "assigned", "in-progress", "blocked",
"deferred", "complete" and "obsolete" for the six named states, and for
every other integer n the placeholder "State(n)", where the text printed for
n is a decimal integer that denotes n. -/
theorem State_String_labels :
    State.String Assigned = "assigned" ∧ State.String InProgress = "in-progress" ∧
    State.String Blocked = "blocked" ∧ State.String Deferred = "deferred" ∧
    State.String Completed = "complete" ∧ State.String Deleted = "obsolete" ∧
    (∀ n : State, n ≠ Assigned → n ≠ InProgress → n ≠ Blocked → n ≠ Deferred →
      n ≠ Completed → n ≠ Deleted →
      State.String n = "State(" ++ toString n ++ ")" ∧ decimalInteger (toString n) = some n) ∧
    State.String 6 = "State(6)" ∧ State.String 17 = "State(17)" ∧
    State.String (-1) = "State(-1)" ∧ State.String (-250) = "State(-250)" := by
  refine ⟨by decide, by decide, by decide, by decide, by decide, by decide, ?_,
    by decide, by decide, by decide, by decide⟩
  intro n h1 h0 h2 h3 h4 h5
  refine ⟨?_, decimalInteger_toString n⟩
  unfold State.String
  rw [if_neg h1, if_neg h0, if_neg h2, if_neg h3, if_neg h4, if_neg h5]

/-- C14: parsePriority succeeds exactly on the texts that are a decimal
integer with value in the range 0 to 9, and then returns that integer; on
every other text it fails with the error "Priority must be between 0 and 9,
got (the text in single quotes)". The texts "0" and "9" succeed with 0 and
9; "10", "-1" and "abc" fail. -/
theorem parsePriority_spec :
    (∀ s : String,
      ((parsePriority s).2 = none ↔ ∃ n : Int, decimalInteger s = some n ∧ 0 ≤ n ∧ n ≤ 9) ∧
      (∀ n : Int, decimalInteger s = some n → 0 ≤ n → n ≤ 9 → parsePriority s = (n, none)) ∧
      ((parsePriority s).2 ≠ none → (parsePriority s).2 =
        some ("Priority must be between 0 and 9, got \x27" ++ s ++ "\x27"))) ∧
    parsePriority "0" = (0, none) ∧ parsePriority "9" = (9, none) ∧
    (parsePriority "10").2 = some "Priority must be between 0 and 9, got \x2710\x27" ∧
    (parsePriority "-1").2 = some "Priority must be between 0 and 9, got \x27-1\x27" ∧
    (parsePriority "abc").2 = some "Priority must be between 0 and 9, got \x27abc\x27" := by
  refine ⟨?_, by decide, by decide, by decide, by decide, by decide⟩
  intro s
  have hok : ∀ n : Int, decimalInteger s = some n → 0 ≤ n → n ≤ 9 →
      parsePriority s = (n, none) := by
    intro n hn h0 h9
    have ha : strconv.Atoi s = (n, none) :=
      (Atoi_ok_iff s n).2 ⟨hn, by omega, by omega⟩
    unfold parsePriority
    simp only [ha]
    rw [if_neg (by simp only [ne_eq, not_true_eq_false, false_or]; omega)]
  refine ⟨⟨?_, ?_⟩, hok, ?_⟩
  · intro h
    unfold parsePriority at h
    by_cases hc : (strconv.Atoi s).2 ≠ none ∨ (strconv.Atoi s).1 < 0 ∨ (strconv.Atoi s).1 > 9
    · simp only [if_pos hc, reduceCtorEq] at h
    · simp only [not_or, ne_eq, not_not, not_lt, gt_iff_lt] at hc
      have ha : strconv.Atoi s = ((strconv.Atoi s).1, none) := Prod.ext rfl hc.1
      exact ⟨(strconv.Atoi s).1, ((Atoi_ok_iff s _).1 ha).1, hc.2.1, hc.2.2⟩
  · rintro ⟨n, hn, h0, h9⟩
    rw [hok n hn h0 h9]
  · intro h
    unfold parsePriority at h ⊢
    by_cases hc : (strconv.Atoi s).2 ≠ none ∨ (strconv.Atoi s).1 < 0 ∨ (strconv.Atoi s).1 > 9
    · simp only [if_pos hc]
    · simp only [if_neg hc, ne_eq, not_true_eq_false] at h

/-- Witness for C14: the text "7" is a decimal integer in range. -/
theorem parsePriority_spec_witness :
    decimalInteger "7" = some 7 ∧ parsePriority "7" = (7, none) :=
  ⟨by decide, (parsePriority_spec.1 "7").2.1 7 (by decide) (by decide) (by decide)⟩

/-- C15: for every Created timestamp (and every digest function in the place
of SHA-256), UpdateID never fails and sets ID to the first 10 characters of
the hexadecimal text of the digest of the bytes of the RFC 3339 text of
Created; the new ID has length exactly 10, all of its characters are among
0-9 and a-f, and nothing else in the task changes. -/
theorem UpdateID_spec (Sum256 : List (Fin 256) → sha256.Digest) (t : Task) :
    ∃ t1 : Task, UpdateID Sum256 t = some t1 ∧
      t1.ID = String.mk ((fmt.sprintfHex
        (Sum256 (bytesOf (t.Created.Format time.RFC3339))).bytes).take 10) ∧
      t1.ID.length = 10 ∧
      (∀ c ∈ t1.ID.data, c ∈ "0123456789abcdef".data) ∧
      t1 = { t with ID := t1.ID } := by
  refine ⟨_, UpdateID_eq Sum256 t, rfl, ?_, ?_, rfl⟩
  · have hlen := sprintfHex_length (Sum256 (bytesOf (t.Created.Format time.RFC3339))).bytes
    rw [(Sum256 (bytesOf (t.Created.Format time.RFC3339))).size] at hlen
    simp only [String.length_mk, List.length_take, hlen]
    decide
  · intro c hc
    exact sprintfHex_mem _ c (List.mem_of_mem_take hc)

/-- Witness for C15: the ID of the sample task under the digest stub. -/
theorem UpdateID_spec_witness :
    ∃ t1 : Task, UpdateID stubSum256 createdTask = some t1 ∧ t1.ID.length = 10 :=
  (UpdateID_spec stubSum256 createdTask).imp (fun _ h => ⟨h.1, h.2.2.1⟩)

/-- C16: the ID set by UpdateID depends on Created only: two tasks with the
same Created get the same ID whatever their other fields (Description,
Priority, Notes, Due, State, Started, Worked, Path and the previous ID) are,
and UpdateID changes no field other than ID. -/
theorem UpdateID_depends_on_Created_only (Sum256 : List (Fin 256) → sha256.Digest)
    (t1 t2 : Task) (h : t1.Created = t2.Created) :
    ∃ u1 u2 : Task, UpdateID Sum256 t1 = some u1 ∧ UpdateID Sum256 t2 = some u2 ∧
      u1.ID = u2.ID ∧
      u1 = { t1 with ID := u1.ID } ∧ u2 = { t2 with ID := u2.ID } := by
  refine ⟨_, _, UpdateID_eq Sum256 t1, UpdateID_eq Sum256 t2, ?_, rfl, rfl⟩
  simp only [h]

/-- Witness for C16: two tasks created at the same time that differ in every
other field get the same ID. -/
theorem UpdateID_depends_on_Created_only_witness :
    createdTask.Created = { otherCreatedTask with Created := sampleCreated }.Created ∧
    ∃ u1 u2 : Task, UpdateID stubSum256 createdTask = some u1 ∧
      UpdateID stubSum256 { otherCreatedTask with Created := sampleCreated } = some u2 ∧
      u1.ID = u2.ID ∧
      u1 = { createdTask with ID := u1.ID } ∧
      u2 = { { otherCreatedTask with Created := sampleCreated } with ID := u2.ID } :=
  ⟨rfl, UpdateID_depends_on_Created_only stubSum256 createdTask
    { otherCreatedTask with Created := sampleCreated } rfl⟩

/-- C17 (as it holds): when the resolver succeeds for module name "task" and
the year of Created written in decimal and zero-padded to at least four
digits (layout "2006"), returning the directory dir, UpdatePath succeeds and
sets Path to filepath.Join of dir and the file name made of the two-digit
zero-padded month, day, then "-", then the two-digit zero-padded hour,
minute and second of Created, then ".task"; nothing else changes. The year
text has exactly four digits for the years 0 to 9999 and at least four for
every year, and the file name always has 16 characters. -/
theorem UpdatePath_resolved (ModuleDir : String → String → String × error) (t : Task)
    (dir : String)
    (h : ModuleDir "task" (String.mk (time.appendInt t.Created.Date.1 4)) = (dir, none)) :
    UpdatePath ModuleDir t =
      (none, { t with Path := filepath.Join dir (String.mk (time.appendInt t.Created.Date.2.1 2 ++ time.appendInt t.Created.Date.2.2 2 ++ "-".data ++ time.appendInt t.Created.Clock.1 2 ++ time.appendInt t.Created.Clock.2.1 2 ++ time.appendInt t.Created.Clock.2.2 2 ++ ".task".data)) }) ∧
    (0 ≤ t.Created.Date.1 → t.Created.Date.1 ≤ 9999 →
      (time.appendInt t.Created.Date.1 4).length = 4) ∧
    (time.appendInt t.Created.Date.2.1 2).length = 2 ∧
    (time.appendInt t.Created.Date.2.2 2).length = 2 ∧
    (time.appendInt t.Created.Clock.1 2).length = 2 ∧
    (time.appendInt t.Created.Clock.2.1 2).length = 2 ∧
    (time.appendInt t.Created.Clock.2.2 2).length = 2 ∧
    (t.Created.Format fileLayout).length = 16 ∧
    4 ≤ (time.appendInt t.Created.Date.1 4).length := by
  have hy : t.Created.Format yearLayout = String.mk (time.appendInt t.Created.Date.1 4) := by
    simp [time.Time.Format, yearLayout, time.formatChunk]
  have hf : t.Created.Format fileLayout = String.mk (time.appendInt t.Created.Date.2.1 2 ++ time.appendInt t.Created.Date.2.2 2 ++ "-".data ++ time.appendInt t.Created.Clock.1 2 ++ time.appendInt t.Created.Clock.2.1 2 ++ time.appendInt t.Created.Clock.2.2 2 ++ ".task".data) := by
    simp [time.Time.Format, fileLayout, time.formatChunk]
  obtain ⟨_, hm, _, hd⟩ := absDate_bound t.Created.abs
  obtain ⟨hh, hmin, hs⟩ := absClock_bound t.Created.abs
  have l1 := appendInt_two_length t.Created.Date.2.1 (by unfold time.Time.Date; omega)
  have l2 := appendInt_two_length t.Created.Date.2.2 (by unfold time.Time.Date; omega)
  have l3 := appendInt_two_length t.Created.Clock.1 (by unfold time.Time.Clock; omega)
  have l4 := appendInt_two_length t.Created.Clock.2.1 (by unfold time.Time.Clock; omega)
  have l5 := appendInt_two_length t.Created.Clock.2.2 (by unfold time.Time.Clock; omega)
  refine ⟨?_, ?_, l1, l2, l3, l4, l5, ?_, ?_⟩
  · unfold UpdatePath
    simp only [hy, hf, h, ne_eq, not_true_eq_false, if_false]
  · intro h0 h9
    exact appendInt_length _ 4 h0 (by decide) (by norm_num; omega)
  · rw [hf]
    simp only [String.length_mk, List.length_append, l1, l2, l3, l4, l5]
    rfl
  · unfold time.appendInt
    simp only [List.length_append, List.length_replicate]
    omega

/-- Witness for C17: Created 2024-03-05T07:08:09 with a resolver returning
/base/2024 for ("task", "2024") yields the path
/base/2024/0305-070809.task. -/
theorem UpdatePath_resolved_witness :
    String.mk (time.appendInt createdTask.Created.Date.1 4) = "2024" ∧
    stubModuleDir "task" "2024" = ("/base/2024", none) ∧
    UpdatePath stubModuleDir createdTask =
      (none, { createdTask with Path := "/base/2024/0305-070809.task" }) :=
  ⟨by decide, by decide,
   (UpdatePath_resolved stubModuleDir createdTask "/base/2024" (by decide)).1.trans
     (by decide)⟩

/-- C17 (as stated) fails on the four digits of the year: for a task created
on 10000-01-01T00:00:00Z the year text has five digits, "10000"; UpdatePath
succeeds with a resolver that succeeds only for ("task", "10000") and fails
for every year text of four characters. -/
theorem UpdatePath_year_five_digits :
    year10000Task.Created.Date = (10000, 1, 1) ∧
    year10000Task.Created.Format yearLayout = "10000" ∧
    (year10000Task.Created.Format yearLayout).length = 5 ∧
    (∀ year : String, year.length = 4 → (stubModuleDir10000 "task" year).2 ≠ none) ∧
    UpdatePath stubModuleDir10000 year10000Task =
      (none, { year10000Task with Path := "/base/10000/0101-000000.task" }) := by
  refine ⟨by decide, by decide, by decide, ?_, by decide⟩
  intro year hlen
  have hne : ¬ ("task" = "task" ∧ year = "10000") := by
    rintro ⟨_, h⟩
    rw [h] at hlen
    exact absurd hlen (by decide)
  unfold stubModuleDir10000
  rw [if_neg hne]
  exact fun h => absurd h (by decide)

/-- C18: UpdatePath returns exactly the error of the directory resolver (so
it fails if and only if the resolver fails); when it fails the task is
unchanged, and when it succeeds nothing but Path is changed. -/
theorem UpdatePath_error (ModuleDir : String → String → String × error) (t : Task) :
    (UpdatePath ModuleDir t).1 = (ModuleDir "task" (t.Created.Format yearLayout)).2 ∧
    ((UpdatePath ModuleDir t).1 ≠ none ↔
      (ModuleDir "task" (t.Created.Format yearLayout)).2 ≠ none) ∧
    ((UpdatePath ModuleDir t).1 ≠ none → (UpdatePath ModuleDir t).2 = t) ∧
    ((UpdatePath ModuleDir t).1 = none →
      (UpdatePath ModuleDir t).2 = { t with Path := (UpdatePath ModuleDir t).2.Path }) := by
  by_cases hr : (ModuleDir "task" (t.Created.Format yearLayout)).2 ≠ none
  · rw [UpdatePath_of_resolver_error ModuleDir t hr]
    exact ⟨rfl, Iff.rfl, fun _ => rfl, fun h => absurd h hr⟩
  · have hr2 : (ModuleDir "task" (t.Created.Format yearLayout)).2 = none := not_not.1 hr
    rw [UpdatePath_of_resolver_ok ModuleDir t hr2]
    exact ⟨hr2.symm, ⟨fun h => absurd rfl h, fun h => absurd hr2 h⟩, fun h => absurd rfl h,
      fun _ => rfl⟩

/-- Witness for C18: the resolver stub fails for the year 0001 of the
zero-value task and succeeds for 2024. -/
theorem UpdatePath_error_witness :
    UpdatePath stubModuleDir zeroTask = (some "cannot create module directory", zeroTask) ∧
    (UpdatePath stubModuleDir createdTask).1 = none ∧
    (UpdatePath stubModuleDir zeroTask).2 = zeroTask :=
  ⟨by decide, by decide, (UpdatePath_error stubModuleDir zeroTask).2.2.1 (by decide)⟩

/-- C19: a successful stateTransition to Completed starts from InProgress
(so Worked receives time.Since(Started) by int64 addition and Started is
cleared), and a successful stateTransition to Deleted starts from Assigned,
Blocked or Deferred. -/
theorem completed_and_deleted_sources (clk : time.Clock) (t : Task) :
    ((stateTransition clk t Completed).1 = none →
      t.State = InProgress ∧
      (stateTransition clk t Completed).2.Worked =
        time.wrap64 (t.Worked + time.Since clk t.Started) ∧
      (stateTransition clk t Completed).2.Started = time.Time.zero) ∧
    ((stateTransition clk t Deleted).1 = none →
      t.State = Assigned ∨ t.State = Blocked ∨ t.State = Deferred) := by
  constructor
  · intro h
    have ha := (stateTransition_err_none_iff clk t Completed).1 h
    have hs : t.State = InProgress := by
      unfold transitionAllowed at ha
      split_ifs at ha <;> simp_all
    rw [stateTransition_of_allowed clk t Completed ha]
    rw [if_neg (by decide), if_pos hs]
    exact ⟨hs, rfl, rfl⟩
  · intro h
    have ha := (stateTransition_err_none_iff clk t Deleted).1 h
    unfold transitionAllowed at ha
    split_ifs at ha <;> simp_all

/-- Witness for C19: completing the running task at the clock of the year
2160, five seconds after its Started on the monotonic clock, and deleting
the Assigned task. -/
theorem completed_and_deleted_sources_witness :
    (stateTransition clock2160 runningTask Completed).1 = none ∧
    runningTask.State = InProgress ∧
    (stateTransition clock2160 runningTask Completed).2.Worked = 3605000000000 ∧
    (stateTransition sampleClock assignedTask Deleted).1 = none ∧
    (assignedTask.State = Assigned ∨ assignedTask.State = Blocked ∨
      assignedTask.State = Deferred) :=
  ⟨by decide,
   ((completed_and_deleted_sources clock2160 runningTask).1 (by decide)).1,
   (((completed_and_deleted_sources clock2160 runningTask).1 (by decide)).2.1).trans
     (by decide),
   by decide,
   (completed_and_deleted_sources sampleClock assignedTask).2 (by decide)⟩

/-- C20: the ID ignores the sub-second part of Created: two tasks whose
Created agree on year, month, day, hour, minute, second and zone offset have
the same RFC 3339 text of Created and get the same ID from UpdateID, whatever
the nanoseconds of the two timestamps are. -/
theorem UpdateID_ignores_nanoseconds (Sum256 : List (Fin 256) → sha256.Digest)
    (t1 t2 : Task) (hdate : t1.Created.Date = t2.Created.Date)
    (hclock : t1.Created.Clock = t2.Created.Clock)
    (hoffset : t1.Created.offset = t2.Created.offset) :
    t1.Created.Format time.RFC3339 = t2.Created.Format time.RFC3339 ∧
    ∃ u1 u2 : Task, UpdateID Sum256 t1 = some u1 ∧ UpdateID Sum256 t2 = some u2 ∧
      u1.ID = u2.ID := by
  have hf := Format_RFC3339_congr t1.Created t2.Created hdate hclock hoffset
  refine ⟨hf, _, _, UpdateID_eq Sum256 t1, UpdateID_eq Sum256 t2, ?_⟩
  simp only [hf]

/-- Witness for C20: two tasks created in the same second, 123456789 ns
apart, get the same ID. -/
theorem UpdateID_ignores_nanoseconds_witness :
    createdTask.Created.nsec ≠ otherCreatedTask.Created.nsec ∧
    createdTask.Created.Format time.RFC3339 = "2024-03-05T07:08:09Z" ∧
    createdTask.Created.Format time.RFC3339 = otherCreatedTask.Created.Format time.RFC3339 ∧
    ∃ u1 u2 : Task, UpdateID stubSum256 createdTask = some u1 ∧
      UpdateID stubSum256 otherCreatedTask = some u2 ∧ u1.ID = u2.ID :=
  ⟨by decide, by decide,
   UpdateID_ignores_nanoseconds stubSum256 createdTask otherCreatedTask (by decide) (by decide)
     (by decide)⟩

end task
